import Mathlib

/-!
# Verification of `shared/nm-test-utils-impl.c`

A shallow embedding of the NetworkManager test harness helpers:

* the stub-service lifecycle (`nmtstc_service_init`, `nmtstc_service_cleanup`),
* the remote calls (`add_device_common`, `nmtstc_service_update_connection`),
* the randomised client bootstrap (`nmtstc_client_new` and its helpers).

Effects are made explicit: everything the C code asks of its environment
(results of `waitpid`, clock readings, bus queries, random draws) is an input,
and everything it does to the environment is recorded in a trace of events.
-/

set_option autoImplicit false

namespace NMTest

/-! ## Service lifecycle: data model -/

/-- The two signals `nmtstc_service_cleanup` sends with `kill`. -/
inductive Signal where
  | SIGTERM
  | SIGKILL
  deriving DecidableEq, Repr

/-- One answer of `waitpid (info->pid, &status, WNOHANG)`: the returned value and
whether `errno == EINTR` holds after the call. -/
structure WaitResult where
  ret : Int
  eintr : Bool
  deriving DecidableEq, Repr

/-- Observable actions of the service lifecycle code, in program order. Events
that read the environment carry the value that was read. -/
inductive SEv where
  | nm_close (fd : Int)
  | clear_proxy
  | kill (pid : Int) (sig : Signal)
  | monotonic_time (t : Int)
  | waitpid (r : WaitResult)
  | usleep (us : Nat)
  | name_exists (found : Bool)
  | clear_bus
  | free_info
  | proxy_new (ok : Bool)
  deriving DecidableEq, Repr

/-- How a run ended: it returned, the process died (`g_error`, a failed
`g_assert`, a fatal failure inside GLib), or the supplied environment answers
were used up while the code was still polling. -/
inductive Status where
  | returned
  | aborted
  | pending
  deriving DecidableEq, Repr

/-- The fields of `NMTstcServiceInfo` the lifecycle code reads. -/
structure NMTstcServiceInfo where
  pid : Int
  keepalive_fd : Int
  has_proxy : Bool
  deriving DecidableEq, Repr

/-- What the environment answers during `nmtstc_service_cleanup`: the
successive results of `waitpid`, the successive readings of
`g_get_monotonic_time`, and the answer of the final `name_exists` query. -/
structure CleanupEnv where
  waits : List WaitResult
  clocks : List Int
  name_exists : Bool
  deriving DecidableEq, Repr

/-- GLib's `G_USEC_PER_SEC` (glib/gtypes.h): microseconds per second. -/
def G_USEC_PER_SEC : Nat := 1000000

/-- Addition of two `gint64` values as the machine performs it (two's
complement, 64 bits). -/
def gint64_add (a b : Int) : Int :=
  (a + b + 9223372036854775808) % 18446744073709551616 - 9223372036854775808

/-- The `again_wait:` loop of `nmtstc_service_cleanup` (lines 192-205), started
with the deadline base `t`. Each iteration consumes one `waitpid` answer, and
one clock reading when the child is still running. The status `returned`
means the loop was left with `ret == info->pid`. -/
def again_wait (pid : Int) (t : Int) : List WaitResult → List Int → Status × List SEv
  | [], _ => (Status.pending, [])
  | w :: ws, clocks =>
    if w.ret = 0 then
      match clocks with
      | [] => (Status.pending, [SEv.waitpid w])
      | now :: clocks' =>
        if gint64_add t 2000000 < now then
          (Status.aborted, [SEv.waitpid w, SEv.monotonic_time now, SEv.kill pid Signal.SIGKILL])
        else
          let r := again_wait pid t ws clocks'
          (r.1, SEv.waitpid w :: SEv.monotonic_time now :: SEv.usleep (G_USEC_PER_SEC / 50) :: r.2)
    else if w.ret = -1 ∧ w.eintr = true then
      let r := again_wait pid t ws clocks
      (r.1, SEv.waitpid w :: r.2)
    else if w.ret = pid then
      (Status.returned, [SEv.waitpid w])
    else
      (Status.aborted, [SEv.waitpid w])

/-- Lines 208-213 of `nmtstc_service_cleanup`: the assertion that the bus name
is gone, then the release of the bus and of the handle. -/
def cleanup_finish (env : CleanupEnv) : Status × List SEv :=
  if env.name_exists then
    (Status.aborted, [SEv.name_exists true])
  else
    (Status.returned, [SEv.name_exists false, SEv.clear_bus, SEv.free_info])

/-- The function `nmtstc_service_cleanup`. `NM_PID_T_INVAL` is a macro of a header that is
not part of the file; it is a parameter here. -/
def nmtstc_service_cleanup (NM_PID_T_INVAL : Int) (info : Option NMTstcServiceInfo)
    (env : CleanupEnv) : Status × List SEv :=
  match info with
  | none => (Status.returned, [])
  | some i =>
    let pre := [SEv.nm_close i.keepalive_fd, SEv.clear_proxy]
    if i.pid ≠ NM_PID_T_INVAL then
      match env.clocks with
      | [] => (Status.pending, pre ++ [SEv.kill i.pid Signal.SIGTERM])
      | t :: clocks =>
        let r := again_wait i.pid t env.waits clocks
        let tr := pre ++ SEv.kill i.pid Signal.SIGTERM :: SEv.monotonic_time t :: r.2
        match r.1 with
        | Status.returned =>
          let f := cleanup_finish env
          (f.1, tr ++ f.2)
        | st => (st, tr)
    else
      let f := cleanup_finish env
      (f.1, pre ++ f.2)

/-- Total time, in microseconds, slept by the `g_usleep` calls of a trace. -/
def slept : List SEv → Nat
  | [] => 0
  | SEv.usleep us :: rest => us + slept rest
  | _ :: rest => slept rest

/-- The polling-rate property of a trace: between two successive polls that
both find the child still running, at least `us` microseconds are slept. -/
def PollGapAtLeast (us : Nat) (tr : List SEv) : Prop :=
  ∀ pre w1 mid w2 post, tr = pre ++ SEv.waitpid w1 :: (mid ++ SEv.waitpid w2 :: post) →
    (∀ w, SEv.waitpid w ∉ mid) → w1.ret = 0 → w2.ret = 0 → us ≤ slept mid

/-- The `WIFEXITED` predicate of <sys/wait.h>: the low seven bits of the status are zero. -/
def WIFEXITED (status : Int) : Bool := status % 128 == 0

/-- The `WEXITSTATUS` value of <sys/wait.h>: bits 8 to 15 of the status. -/
def WEXITSTATUS (status : Int) : Int := (status / 256) % 256

/-- The fields of `ServiceInitWaitData` that the two callbacks of the
readiness wait fill in. -/
structure ServiceInitWaitData where
  exit_code : Int
  exited : Bool
  name_found : Bool
  deriving DecidableEq, Repr

/-- What `nmtstc_service_init` hands back: `NULL`, the service handle, a fatal
abort, or a run cut short (which the teardown of an invalid pid never is). -/
inductive InitResult where
  | null
  | handle (info : NMTstcServiceInfo)
  | abort
  | pending
  deriving DecidableEq, Repr

/-- The function `nmtstc_service_init` from the end of the readiness wait on (lines
133-171). `info` is the handle as filled by the spawn, `had_timeout` and `data`
are what the wait produced, `env` is what the environment answers during the
nested teardown and `proxy_ok` whether `g_dbus_proxy_new_sync` succeeds. -/
def nmtstc_service_init (NM_PID_T_INVAL : Int) (info : NMTstcServiceInfo) (had_timeout : Bool)
    (data : ServiceInitWaitData) (env : CleanupEnv) (proxy_ok : Bool) : InitResult × List SEv :=
  if had_timeout then
    (InitResult.abort, [])
  else if !data.name_found then
    if !data.exited then
      (InitResult.abort, [])
    else
      let c := nmtstc_service_cleanup NM_PID_T_INVAL (some { info with pid := NM_PID_T_INVAL }) env
      match c.1 with
      | Status.returned =>
        if WIFEXITED data.exit_code && WEXITSTATUS data.exit_code == 77 then
          (InitResult.null, c.2)
        else
          (InitResult.abort, c.2)
      | Status.aborted => (InitResult.abort, c.2)
      | Status.pending => (InitResult.pending, c.2)
  else if proxy_ok then
    (InitResult.handle { info with has_proxy := true }, [SEv.proxy_new true])
  else
    (InitResult.abort, [SEv.proxy_new false])

/-! ## Remote calls -/

/-- A `GVariant` as far as the harness looks at it: its type string and an
identifier of the value it carries. -/
structure GVariant where
  type_string : String
  value : Nat
  deriving DecidableEq, Repr

/-- The argument tuples the harness builds with `g_variant_new`. -/
inductive CallArgs where
  | s (ifname : String)
  | ss_as (ifname : String) (hwaddr : String) (subchannels : List String)
  | vb (connection : GVariant) (verify : Bool)
  | ovb (path : String) (connection : GVariant) (verify : Bool)
  deriving DecidableEq, Repr

/-- One invocation of `g_dbus_proxy_call_sync`: method name, arguments, whether
the flags are `G_DBUS_CALL_FLAGS_NO_AUTO_START`, and the timeout in
milliseconds. -/
structure ProxyCall where
  method : String
  args : CallArgs
  no_auto_start : Bool
  timeout_msec : Int
  deriving DecidableEq, Repr

/-- The function `call_add_wired_device`: the request it sends. -/
def call_add_wired_device (ifname : String) (hwaddr : Option String)
    (subchannels : Option (List String)) : ProxyCall :=
  let hwaddr := match hwaddr with
    | none => "/"
    | some h => h
  let subchannels := match subchannels with
    | none => []
    | some l => l
  { method := "AddWiredDevice", args := CallArgs.ss_as ifname hwaddr subchannels,
    no_auto_start := true, timeout_msec := 3000 }

/-- The function `call_add_device`: the request it sends. -/
def call_add_device (method : String) (ifname : String) : ProxyCall :=
  { method := method, args := CallArgs.s ifname, no_auto_start := true, timeout_msec := 3000 }

/-- The request `add_device_common` sends (lines 287-290). What follows the
request in the C function, checking the reply and waiting for the client to
announce the device, is not part of this model. -/
def add_device_common (method : String) (ifname : String) (hwaddr : Option String)
    (subchannels : Option (List String)) : ProxyCall :=
  if method = "AddWiredDevice" then
    call_add_wired_device ifname hwaddr subchannels
  else
    call_add_device method ifname

/-- The function `nmtstc_service_add_device`. -/
def nmtstc_service_add_device (method : String) (ifname : String) : ProxyCall :=
  add_device_common method ifname none none

/-- The function `nmtstc_service_add_wired_device`. -/
def nmtstc_service_add_wired_device (ifname : String) (hwaddr : Option String)
    (subchannels : Option (List String)) : ProxyCall :=
  add_device_common "AddWiredDevice" ifname hwaddr subchannels

/-- A connection profile as far as `nmtstc_service_update_connection` looks at
it: what `nm_connection_get_path` and `nm_connection_to_dbus` return for it
(both functions live outside this file). -/
structure NMConnection where
  path : Option String
  to_dbus : GVariant
  deriving DecidableEq, Repr

/-- The scan of GLib's `g_variant_is_object_path` over the characters after the
first: letters, digits and `_` are accepted, a `/` is accepted unless the
character before it is a `/`, anything else is refused. -/
def object_path_scan : Char → List Char → Bool
  | _, [] => true
  | prev, c :: rest =>
    if c.isAlphanum || c == '_' then object_path_scan c rest
    else if c == '/' then
      if prev == '/' then false else object_path_scan c rest
    else false

/-- GLib's `g_variant_is_object_path`: the string begins with `/`, passes the
scan, and does not end in `/` unless it is the root path "/". -/
def g_variant_is_object_path (s : String) : Bool :=
  match s.data with
  | [] => false
  | c :: rest =>
    c == '/' && object_path_scan c rest && !(!rest.isEmpty && rest.getLast? == some '/')

/-- The function `nmtstc_service_update_connection_variant`. `reply` is what the remote call
answers: `none` for an error, otherwise the type string of the result. The
result is the status together with the remote calls made. The argument tuple
is built by `g_variant_new ("(ovb)", path, ...)`, which accepts for `o` only a
D-Bus object path: with any other string the process dies inside GLib before
`g_dbus_proxy_call_sync` is reached. -/
def nmtstc_service_update_connection_variant (sinfo : Option NMTstcServiceInfo)
    (path : Option String) (connection : GVariant) (verify_connection : Bool)
    (reply : Option String) : Status × List ProxyCall :=
  match sinfo with
  | none => (Status.aborted, [])
  | some si =>
    if !si.has_proxy then (Status.aborted, [])
    else if connection.type_string ≠ "a\x7bsa\x7bsv\x7d\x7d" then (Status.aborted, [])
    else
      match path with
      | none => (Status.aborted, [])
      | some p =>
        if p.data.head? ≠ some '/' then (Status.aborted, [])
        else if !g_variant_is_object_path p then (Status.aborted, [])
        else
          let call : ProxyCall :=
            { method := "UpdateConnection", args := CallArgs.ovb p connection verify_connection,
              no_auto_start := true, timeout_msec := 3000 }
          match reply with
          | none => (Status.aborted, [call])
          | some ty => if ty = "()" then (Status.returned, [call]) else (Status.aborted, [call])

/-- The function `nmtstc_service_update_connection`. -/
def nmtstc_service_update_connection (sinfo : Option NMTstcServiceInfo)
    (path : Option String) (connection : NMConnection) (verify_connection : Bool)
    (reply : Option String) : Status × List ProxyCall :=
  let path := match path with
    | none => connection.path
    | some p => some p
  match path with
  | none => (Status.aborted, [])
  | some p =>
    nmtstc_service_update_connection_variant sinfo (some p) connection.to_dbus verify_connection reply

/-! ## Client bootstrap -/

/-- The keyed data attached to a `GObject`: keys with the non-null pointers
stored under them. -/
abbrev GData := List (String × Nat)

/-- GLib's `g_object_get_data`: the pointer stored under `key`, `none` for NULL. -/
def g_object_get_data : GData → String → Option Nat
  | [], _ => none
  | (k, v) :: rest, key => if k = key then some v else g_object_get_data rest key

/-- GLib's `g_object_set_data_full` for a non-null pointer: replaces the entry
of `key` when there is one, adds an entry otherwise. -/
def g_object_set_data_full : GData → String → Nat → GData
  | [], key, v => [(key, v)]
  | (k, d) :: rest, key, v =>
    if k = key then (key, v) :: rest else (k, d) :: g_object_set_data_full rest key v

/-- The key `nm_sprintf_buf (s, "nm-test-extra-context-%u", key_idx)` writes. -/
def extra_context_key (key_idx : Nat) : String :=
  "nm-test-extra-context-" ++ Nat.repr key_idx

/-- The `for (key_idx = 0; TRUE; key_idx++)` loop of
`_nmtstc_client_new_extra_context` (lines 551-564) run for at most `fuel`
iterations from `key_idx`: the index at which it leaves through `break`.
`key_idx` is a `guint`, so it wraps at 2^32. -/
def extra_context_key_idx (data : GData) : Nat → Nat → Option Nat
  | 0, _ => none
  | fuel + 1, key_idx =>
    if (g_object_get_data data (extra_context_key key_idx)).isNone then
      some key_idx
    else
      extra_context_key_idx data fuel ((key_idx + 1) % 4294967296)

/-- Lines 551-564 as a whole: the index chosen and the data of the client
after `g_object_set_data_full`. After 2^32 iterations the index has taken
every value, so a loop that has not left by then never leaves (`none`). -/
def extra_context_set_data (data : GData) (source : Nat) : Option (Nat × GData) :=
  match extra_context_key_idx data 4294967296 0 with
  | none => none
  | some k => some (k, g_object_set_data_full data (extra_context_key k) source)

/-- Observable actions of the client bootstrap, in program order. -/
inductive CEv where
  | context_push (ctx : Nat)
  | context_pop (ctx : Nat)
  | integrate_source (ctx : Nat)
  | source_attach (src : Nat)
  | set_data (key : String) (src : Nat)
  | guard_attach
  | object_new
  | initable_init (error_slot : Bool)
  | client_new (error_slot : Bool)
  | client_new_async
  | client_new_finish (error_slot : Bool)
  | idle_attach (sync : Bool)
  | loop_run
  | loop_quit
  deriving DecidableEq, Repr

/-- An `NMClient` object: its keyed data. -/
structure NMClient where
  data : GData
  deriving DecidableEq, Repr

/-- State of a bootstrap run. `rand_uint32` and `rand_bool` hold the values the
coming calls of `nmtst_get_rand_uint32` and `nmtst_get_rand_bool` return (both
helpers live outside this file, so their results are inputs), `next_id` is
the identifier of the next main context created, `trace` the events so far. -/
structure TState where
  rand_uint32 : List Nat
  rand_bool : List Bool
  next_id : Nat
  trace : List CEv
  deriving DecidableEq, Repr

/-- One call of `nmtst_get_rand_uint32`; `none` when the supplied draws are used up. -/
def nmtst_get_rand_uint32 (s : TState) : Option (Nat × TState) :=
  match s.rand_uint32 with
  | [] => none
  | v :: rest => some (v, { s with rand_uint32 := rest })

/-- One call of `nmtst_get_rand_bool`; `none` when the supplied draws are used up. -/
def nmtst_get_rand_bool (s : TState) : Option (Bool × TState) :=
  match s.rand_bool with
  | [] => none
  | b :: rest => some (b, { s with rand_bool := rest })

/-- Records an event. -/
def emit (e : CEv) (s : TState) : TState :=
  { s with trace := s.trace ++ [e] }

/-- The callback `_nmtstc_client_new_cb`, run when the asynchronous construction completes. -/
def _nmtstc_client_new_cb (s : TState) : Option (NMClient × TState) :=
  match nmtst_get_rand_bool s with
  | none => none
  | some (error_slot, s) =>
    some ({ data := [] }, emit CEv.loop_quit (emit (CEv.client_new_finish error_slot) s))

/-- The function `_nmtstc_client_new`. The constructors are taken to succeed: the
assertions on their results are not part of the model. -/
def _nmtstc_client_new (sync : Bool) (s : TState) : Option (NMClient × TState) :=
  if sync then
    match nmtst_get_rand_bool s with
    | none => none
    | some (guard, s) =>
      let s := if guard then emit CEv.guard_attach s else s
      match nmtst_get_rand_bool s with
      | none => none
      | some (two_step, s) =>
        if two_step then
          let s := emit CEv.object_new s
          match nmtst_get_rand_bool s with
          | none => none
          | some (error_slot, s) => some ({ data := [] }, emit (CEv.initable_init error_slot) s)
        else
          match nmtst_get_rand_bool s with
          | none => none
          | some (error_slot, s) => some ({ data := [] }, emit (CEv.client_new error_slot) s)
  else
    _nmtstc_client_new_cb (emit CEv.loop_run (emit CEv.client_new_async s))

/-- The callback `_nmtstc_client_new_inside_loop_do`. Its call `nmtstc_client_new (d->sync)`
is the argument `self`. -/
def _nmtstc_client_new_inside_loop_do (self : Bool → TState → Option (NMClient × TState))
    (d_sync : Bool) (s : TState) : Option (NMClient × TState) :=
  match self d_sync s with
  | none => none
  | some (client, s) => some (client, emit CEv.loop_quit s)

/-- The function `_nmtstc_client_new_inside_loop`: attaches the idle source and runs the
loop, which dispatches `_nmtstc_client_new_inside_loop_do`. -/
def _nmtstc_client_new_inside_loop (self : Bool → TState → Option (NMClient × TState))
    (sync : Bool) (s : TState) : Option (NMClient × TState) :=
  _nmtstc_client_new_inside_loop_do self sync (emit CEv.loop_run (emit (CEv.idle_attach sync) s))

/-- The function `_nmtstc_client_new_extra_context`. Its call `nmtstc_client_new (TRUE)` is
the argument `self`. The integration source is identified with the inner
context it integrates. -/
def _nmtstc_client_new_extra_context (self : Bool → TState → Option (NMClient × TState))
    (s : TState) : Option (NMClient × TState) :=
  let inner_context := s.next_id
  let s := emit (CEv.context_push inner_context) { s with next_id := s.next_id + 1 }
  match self true s with
  | none => none
  | some (client, s) =>
    let s := emit (CEv.source_attach inner_context)
      (emit (CEv.context_pop inner_context) (emit (CEv.integrate_source inner_context) s))
    match extra_context_set_data client.data inner_context with
    | none => none
    | some (key_idx, data) =>
      some ({ data := data }, emit (CEv.set_data (extra_context_key key_idx) inner_context) s)

/-- The function `nmtstc_client_new`. The recursion through the two helpers is bounded by
`fuel`; `none` means that the fuel or the supplied draws were used up. -/
def nmtstc_client_new : Nat → Bool → TState → Option (NMClient × TState)
  | 0, _, _ => none
  | fuel + 1, allow_iterate_main_context, s =>
    match nmtst_get_rand_uint32 s with
    | none => none
    | some (r, s) =>
      if r % 5 = 0 then
        _nmtstc_client_new_extra_context (nmtstc_client_new fuel) s
      else
        let choice : Option ((Bool × Bool) × TState) :=
          if !allow_iterate_main_context then
            some ((true, false), s)
          else
            match nmtst_get_rand_bool s with
            | none => none
            | some (sync, s) =>
              match nmtst_get_rand_uint32 s with
              | none => none
              | some (r, s) => some ((sync, r % 3 == 0), s)
        match choice with
        | none => none
        | some ((sync, inside_loop), s) =>
          if inside_loop then
            _nmtstc_client_new_inside_loop (nmtstc_client_new fuel) sync s
          else
            _nmtstc_client_new sync s

/-! ## Lemmas on the wait loop -/

/-- Case analysis and induction along the iterations of the wait loop: a
property of (remaining answers, result) holds for every run when it holds for
each way one iteration can go. -/
theorem again_wait_cases (pid t : Int)
    (P : List WaitResult → List Int → Status × List SEv → Prop)
    (h_nil : ∀ cs, P [] cs (Status.pending, []))
    (h_noclock : ∀ w ws, w.ret = 0 → P (w :: ws) [] (Status.pending, [SEv.waitpid w]))
    (h_late : ∀ w ws now cs, w.ret = 0 → gint64_add t 2000000 < now →
      P (w :: ws) (now :: cs)
        (Status.aborted, [SEv.waitpid w, SEv.monotonic_time now, SEv.kill pid Signal.SIGKILL]))
    (h_sleep : ∀ w ws now cs r, w.ret = 0 → ¬ gint64_add t 2000000 < now → P ws cs r →
      P (w :: ws) (now :: cs)
        (r.1, SEv.waitpid w :: SEv.monotonic_time now :: SEv.usleep 20000 :: r.2))
    (h_eintr : ∀ w ws cs r, w.ret ≠ 0 → w.ret = -1 → w.eintr = true → P ws cs r →
      P (w :: ws) cs (r.1, SEv.waitpid w :: r.2))
    (h_exit : ∀ w ws cs, w.ret ≠ 0 → w.ret = pid → P (w :: ws) cs (Status.returned, [SEv.waitpid w]))
    (h_other : ∀ w ws cs, w.ret ≠ 0 → w.ret ≠ pid → P (w :: ws) cs (Status.aborted, [SEv.waitpid w])) :
    ∀ ws cs, P ws cs (again_wait pid t ws cs) := by
  intro ws
  induction ws with
  | nil => intro cs; simpa [again_wait] using h_nil cs
  | cons w ws ih =>
    intro cs
    by_cases h0 : w.ret = 0
    · cases cs with
      | nil => simpa [again_wait, h0] using h_noclock w ws h0
      | cons now cs =>
        by_cases hl : gint64_add t 2000000 < now
        · simpa [again_wait, h0, hl] using h_late w ws now cs h0 hl
        · simpa [again_wait, h0, hl, G_USEC_PER_SEC] using h_sleep w ws now cs _ h0 hl (ih cs)
    · by_cases he : w.ret = -1 ∧ w.eintr = true
      · simpa [again_wait, h0, he] using h_eintr w ws cs _ h0 he.1 he.2 (ih cs)
      · by_cases hp : w.ret = pid
        · have := h_exit w ws cs h0 hp
          simp only [again_wait, if_neg h0, if_neg he, if_pos hp]
          exact this
        · have := h_other w ws cs h0 hp
          simp only [again_wait, if_neg h0, if_neg he, if_neg hp]
          exact this

theorem again_wait_no_sigterm (pid t : Int) (ws : List WaitResult) (cs : List Int) (p : Int) :
    SEv.kill p Signal.SIGTERM ∉ (again_wait pid t ws cs).2 := by
  refine again_wait_cases pid t (fun _ _ r => SEv.kill p Signal.SIGTERM ∉ r.2) ?_ ?_ ?_ ?_ ?_ ?_ ?_ ws cs
    <;> intros <;> simp_all

theorem again_wait_no_name_exists (pid t : Int) (ws : List WaitResult) (cs : List Int) (b : Bool) :
    SEv.name_exists b ∉ (again_wait pid t ws cs).2 := by
  refine again_wait_cases pid t (fun _ _ r => SEv.name_exists b ∉ r.2) ?_ ?_ ?_ ?_ ?_ ?_ ?_ ws cs
    <;> intros <;> simp_all

theorem again_wait_sigkill_aborted (pid t : Int) (ws : List WaitResult) (cs : List Int) (p : Int) :
    SEv.kill p Signal.SIGKILL ∈ (again_wait pid t ws cs).2 → (again_wait pid t ws cs).1 = Status.aborted := by
  refine again_wait_cases pid t
    (fun _ _ r => SEv.kill p Signal.SIGKILL ∈ r.2 → r.1 = Status.aborted) ?_ ?_ ?_ ?_ ?_ ?_ ?_ ws cs
    <;> intros <;> simp_all

theorem again_wait_sigkill_pid (pid t : Int) (ws : List WaitResult) (cs : List Int) (p : Int) :
    SEv.kill p Signal.SIGKILL ∈ (again_wait pid t ws cs).2 → p = pid := by
  refine again_wait_cases pid t (fun _ _ r => SEv.kill p Signal.SIGKILL ∈ r.2 → p = pid)
    ?_ ?_ ?_ ?_ ?_ ?_ ?_ ws cs
  · intro cs h; simp at h
  · intro w ws _ h; simp at h
  · intro w ws now cs _ _ h; simpa using h
  · intro w ws now cs r _ _ ih h; exact ih (by simpa using h)
  · intro w ws cs r _ _ _ ih h; exact ih (by simpa using h)
  · intro w ws cs _ _ h; simp at h
  · intro w ws cs _ _ h; simp at h

theorem again_wait_returned (pid t : Int) (ws : List WaitResult) (cs : List Int) :
    (again_wait pid t ws cs).1 = Status.returned →
      ∃ w, SEv.waitpid w ∈ (again_wait pid t ws cs).2 ∧ w.ret = pid := by
  refine again_wait_cases pid t
    (fun _ _ r => r.1 = Status.returned → ∃ w, SEv.waitpid w ∈ r.2 ∧ w.ret = pid) ?_ ?_ ?_ ?_ ?_ ?_ ?_ ws cs
  · intro cs h; simp at h
  · intro w ws _ h; simp at h
  · intro w ws now cs _ _ h; simp at h
  · intro w ws now cs r _ _ ih h
    obtain ⟨w', hw, hp⟩ := ih h
    exact ⟨w', by simp [hw], hp⟩
  · intro w ws cs r _ _ _ ih h
    obtain ⟨w', hw, hp⟩ := ih h
    exact ⟨w', by simp [hw], hp⟩
  · intro w ws cs _ hp _
    exact ⟨w, by simp, hp⟩
  · intro w ws cs _ _ h; simp at h

/-- The trace of the wait loop is empty or begins with a poll. -/
theorem again_wait_head (pid t : Int) (ws : List WaitResult) (cs : List Int) :
    (again_wait pid t ws cs).2 = [] ∨ ∃ w rest, (again_wait pid t ws cs).2 = SEv.waitpid w :: rest := by
  refine again_wait_cases pid t
    (fun _ _ r => r.2 = [] ∨ ∃ w rest, r.2 = SEv.waitpid w :: rest) ?_ ?_ ?_ ?_ ?_ ?_ ?_ ws cs
    <;> intros <;> simp

/-- A forced kill is sent only after a poll that found the child running at a
reading past the deadline. -/
theorem again_wait_sigkill_late (pid t : Int) (ws : List WaitResult) (cs : List Int) :
    SEv.kill pid Signal.SIGKILL ∈ (again_wait pid t ws cs).2 →
      ∃ pre w now post, (again_wait pid t ws cs).2
          = pre ++ SEv.waitpid w :: SEv.monotonic_time now :: post
        ∧ w.ret = 0 ∧ gint64_add t 2000000 < now := by
  refine again_wait_cases pid t
    (fun _ _ r => SEv.kill pid Signal.SIGKILL ∈ r.2 →
      ∃ pre w now post, r.2 = pre ++ SEv.waitpid w :: SEv.monotonic_time now :: post
        ∧ w.ret = 0 ∧ gint64_add t 2000000 < now) ?_ ?_ ?_ ?_ ?_ ?_ ?_ ws cs
  · intro cs h; simp at h
  · intro w ws _ h; simp at h
  · intro w ws now cs h0 hl _
    exact ⟨[], w, now, [SEv.kill pid Signal.SIGKILL], rfl, h0, hl⟩
  · intro w ws now cs r _ _ ih h
    have h' : SEv.kill pid Signal.SIGKILL ∈ r.2 := by simpa using h
    obtain ⟨pre, w', now', post, e, h0, hl⟩ := ih h'
    exact ⟨SEv.waitpid w :: SEv.monotonic_time now :: SEv.usleep 20000 :: pre, w', now', post,
      by simp [e], h0, hl⟩
  · intro w ws cs r _ _ _ ih h
    have h' : SEv.kill pid Signal.SIGKILL ∈ r.2 := by simpa using h
    obtain ⟨pre, w', now', post, e, h0, hl⟩ := ih h'
    exact ⟨SEv.waitpid w :: pre, w', now', post, by simp [e], h0, hl⟩
  · intro w ws cs _ _ h; simp at h
  · intro w ws cs _ _ h; simp at h

/-- Conversely, a poll that found the child running at a reading past the
deadline is followed by the forced kill. `F` stands for what the caller
appends after the loop; it holds no poll and no clock reading. -/
theorem again_wait_late_sigkill (pid t : Int) (F : List SEv) (hF : ∀ w, SEv.waitpid w ∉ F)
    (hF' : ∀ c, SEv.monotonic_time c ∉ F) (ws : List WaitResult) (cs : List Int) :
    ∀ pre w now post,
      (again_wait pid t ws cs).2 ++ F = pre ++ SEv.waitpid w :: SEv.monotonic_time now :: post →
      w.ret = 0 → gint64_add t 2000000 < now →
      SEv.kill pid Signal.SIGKILL ∈ (again_wait pid t ws cs).2 := by
  have key : ∀ pre w now post, F ≠ pre ++ SEv.waitpid w :: SEv.monotonic_time now :: post := by
    intro pre w now post e
    exact hF w (by rw [e]; simp)
  refine again_wait_cases pid t
    (fun _ _ r => ∀ pre w now post,
      r.2 ++ F = pre ++ SEv.waitpid w :: SEv.monotonic_time now :: post →
      w.ret = 0 → gint64_add t 2000000 < now → SEv.kill pid Signal.SIGKILL ∈ r.2)
    ?_ ?_ ?_ ?_ ?_ ?_ ?_ ws cs
  · intro cs pre w now post e _ _
    exact absurd (by simpa using e) (key pre w now post)
  · intro w0 ws _ pre w now post e _ _
    rcases pre with _ | ⟨p, pre⟩
    · simp at e
      exact absurd (show SEv.monotonic_time now ∈ F by rw [e.2]; simp) (hF' now)
    · simp at e
      exact absurd e.2 (key pre w now post)
  · intro w0 ws now0 cs _ _ pre w now post e _ _
    simp
  · intro w0 ws now0 cs r _ hl0 ih pre w now post e h0 hl
    rcases pre with _ | ⟨p1, _ | ⟨p2, _ | ⟨p3, pre⟩⟩⟩
    · simp at e
      exact absurd (e.2.1 ▸ hl) hl0
    · simp at e
    · simp at e
    · simp at e
      simpa using ih pre w now post e.2.2.2 h0 hl
  · intro w0 ws cs r hn0 _ _ ih pre w now post e h0 hl
    rcases pre with _ | ⟨p1, pre⟩
    · simp at e
      exact absurd (e.1 ▸ h0) hn0
    · simp at e
      simpa using ih pre w now post e.2 h0 hl
  · intro w0 ws cs hn0 _ pre w now post e h0 _
    rcases pre with _ | ⟨p1, pre⟩
    · simp at e
      exact absurd (e.1 ▸ h0) hn0
    · simp at e
      exact absurd e.2 (key pre w now post)
  · intro w0 ws cs hn0 _ pre w now post e h0 _
    rcases pre with _ | ⟨p1, pre⟩
    · simp at e
      exact absurd (e.1 ▸ h0) hn0
    · simp at e
      exact absurd e.2 (key pre w now post)

theorem no_poll_split (L : List SEv) (h : ∀ w, SEv.waitpid w ∉ L) (X : List SEv) (w : WaitResult)
    (Y : List SEv) : L ≠ X ++ SEv.waitpid w :: Y := by
  intro e
  exact h w (by rw [e]; simp)

/-- Between a poll that found the child running and the next poll the loop
reads the clock and sleeps 20000 microseconds, and does nothing else. `F`
stands for what the caller appends after the loop; it holds no poll. -/
theorem again_wait_between (pid t : Int) (F : List SEv) (hF : ∀ w, SEv.waitpid w ∉ F)
    (ws : List WaitResult) (cs : List Int) :
    ∀ pre w1 mid w2 post,
      (again_wait pid t ws cs).2 ++ F = pre ++ SEv.waitpid w1 :: (mid ++ SEv.waitpid w2 :: post) →
      w1.ret = 0 →
      ∃ now mid', mid = SEv.monotonic_time now :: SEv.usleep 20000 :: mid'
        ∧ ((∀ w, SEv.waitpid w ∉ mid) → mid' = []) := by
  have key := no_poll_split F hF
  suffices h : ((again_wait pid t ws cs).2 = [] ∨ ∃ w rest, (again_wait pid t ws cs).2 = SEv.waitpid w :: rest)
      ∧ ∀ pre w1 mid w2 post,
      (again_wait pid t ws cs).2 ++ F = pre ++ SEv.waitpid w1 :: (mid ++ SEv.waitpid w2 :: post) →
      w1.ret = 0 →
      ∃ now mid', mid = SEv.monotonic_time now :: SEv.usleep 20000 :: mid'
        ∧ ((∀ w, SEv.waitpid w ∉ mid) → mid' = []) from h.2
  refine again_wait_cases pid t
    (fun _ _ r => (r.2 = [] ∨ ∃ w rest, r.2 = SEv.waitpid w :: rest) ∧ ∀ pre w1 mid w2 post,
      r.2 ++ F = pre ++ SEv.waitpid w1 :: (mid ++ SEv.waitpid w2 :: post) →
      w1.ret = 0 →
      ∃ now mid', mid = SEv.monotonic_time now :: SEv.usleep 20000 :: mid'
        ∧ ((∀ w, SEv.waitpid w ∉ mid) → mid' = []))
    ?_ ?_ ?_ ?_ ?_ ?_ ?_ ws cs
  · intro cs
    refine ⟨Or.inl rfl, ?_⟩
    intro pre w1 mid w2 post e _
    exact absurd (by simpa using e) (key pre w1 _)
  · intro w0 ws _
    refine ⟨Or.inr ⟨w0, [], rfl⟩, ?_⟩
    intro pre w1 mid w2 post e _
    rcases pre with _ | ⟨p, pre⟩
    · simp at e
      exact absurd e.2 (key mid w2 post)
    · simp at e
      exact absurd e.2 (key pre w1 _)
  · intro w0 ws now0 cs _ _
    refine ⟨Or.inr ⟨w0, _, rfl⟩, ?_⟩
    intro pre w1 mid w2 post e _
    rcases pre with _ | ⟨p1, _ | ⟨p2, _ | ⟨p3, pre⟩⟩⟩
    · rcases mid with _ | ⟨m1, _ | ⟨m2, mid⟩⟩
      · simp at e
      · simp at e
      · simp at e
        exact absurd e.2.2.2 (key mid w2 post)
    · simp at e
    · simp at e
    · simp at e
      exact absurd e.2.2.2 (key pre w1 _)
  · intro w0 ws now0 cs r _ _ ih
    refine ⟨Or.inr ⟨w0, _, rfl⟩, ?_⟩
    intro pre w1 mid w2 post e h0
    rcases pre with _ | ⟨p1, _ | ⟨p2, _ | ⟨p3, pre⟩⟩⟩
    · rcases mid with _ | ⟨m1, _ | ⟨m2, mid⟩⟩
      · simp at e
      · simp at e
      · simp at e
        obtain ⟨-, e1, e2, e3⟩ := e
        refine ⟨now0, mid, by rw [e1, e2], ?_⟩
        intro hmid
        rcases ih.1 with hr | ⟨w', rest, hr⟩
        · rw [hr] at e3
          exact absurd (by simpa using e3) (key mid w2 post)
        · rw [hr] at e3
          rcases mid with _ | ⟨m, mid⟩
          · rfl
          · simp at e3
            exact absurd (show SEv.waitpid w' ∈ m1 :: m2 :: m :: mid by rw [← e3.1]; simp) (hmid w')
    · simp at e
    · simp at e
    · simp at e
      exact ih.2 pre w1 mid w2 post e.2.2.2 h0
  · intro w0 ws cs r hn0 _ _ ih
    refine ⟨Or.inr ⟨w0, _, rfl⟩, ?_⟩
    intro pre w1 mid w2 post e h0
    rcases pre with _ | ⟨p1, pre⟩
    · simp at e
      exact absurd (e.1 ▸ h0) hn0
    · simp at e
      exact ih.2 pre w1 mid w2 post e.2 h0
  · intro w0 ws cs hn0 _
    refine ⟨Or.inr ⟨w0, _, rfl⟩, ?_⟩
    intro pre w1 mid w2 post e h0
    rcases pre with _ | ⟨p1, pre⟩
    · simp at e
      exact absurd (e.1 ▸ h0) hn0
    · simp at e
      exact absurd e.2 (key pre w1 _)
  · intro w0 ws cs hn0 _
    refine ⟨Or.inr ⟨w0, _, rfl⟩, ?_⟩
    intro pre w1 mid w2 post e h0
    rcases pre with _ | ⟨p1, pre⟩
    · simp at e
      exact absurd (e.1 ▸ h0) hn0
    · simp at e
      exact absurd e.2 (key pre w1 _)

theorem slept_cons_waitpid (w : WaitResult) (l : List SEv) :
    slept (SEv.waitpid w :: l) = slept l := rfl

/-- Sleep between two polls of the loop with no poll that found the child
running in between: 20000 microseconds after a poll that found the child
running, none after any other poll. `F` stands for what the caller appends
after the loop; it holds no poll. -/
theorem again_wait_slept_between (pid t : Int) (F : List SEv) (hF : ∀ w, SEv.waitpid w ∉ F)
    (ws : List WaitResult) (cs : List Int) :
    ∀ pre w1 mid w2 post,
      (again_wait pid t ws cs).2 ++ F = pre ++ SEv.waitpid w1 :: (mid ++ SEv.waitpid w2 :: post) →
      (∀ w, SEv.waitpid w ∈ mid → w.ret ≠ 0) →
      slept mid = if w1.ret = 0 then 20000 else 0 := by
  have key := no_poll_split F hF
  suffices h : (∀ m w2 post, (again_wait pid t ws cs).2 ++ F = m ++ SEv.waitpid w2 :: post →
        (∀ w, SEv.waitpid w ∈ m → w.ret ≠ 0) → slept m = 0)
      ∧ ∀ pre w1 mid w2 post,
        (again_wait pid t ws cs).2 ++ F = pre ++ SEv.waitpid w1 :: (mid ++ SEv.waitpid w2 :: post) →
        (∀ w, SEv.waitpid w ∈ mid → w.ret ≠ 0) →
        slept mid = if w1.ret = 0 then 20000 else 0 from h.2
  refine again_wait_cases pid t
    (fun _ _ r => (∀ m w2 post, r.2 ++ F = m ++ SEv.waitpid w2 :: post →
        (∀ w, SEv.waitpid w ∈ m → w.ret ≠ 0) → slept m = 0)
      ∧ ∀ pre w1 mid w2 post,
        r.2 ++ F = pre ++ SEv.waitpid w1 :: (mid ++ SEv.waitpid w2 :: post) →
        (∀ w, SEv.waitpid w ∈ mid → w.ret ≠ 0) →
        slept mid = if w1.ret = 0 then 20000 else 0)
    ?_ ?_ ?_ ?_ ?_ ?_ ?_ ws cs
  · intro cs
    refine ⟨?_, ?_⟩
    · intro m w2 post e _
      exact absurd (by simpa using e) (key m w2 post)
    · intro pre w1 mid w2 post e _
      exact absurd (by simpa using e) (key pre w1 _)
  · intro w0 ws h0
    refine ⟨?_, ?_⟩
    · intro m w2 post e hm
      rcases m with _ | ⟨x, m⟩
      · rfl
      · simp at e
        exact absurd e.2 (key m w2 post)
    · intro pre w1 mid w2 post e _
      rcases pre with _ | ⟨p, pre⟩
      · simp at e
        exact absurd e.2 (key mid w2 post)
      · simp at e
        exact absurd e.2 (key pre w1 _)
  · intro w0 ws now0 cs h0 _
    refine ⟨?_, ?_⟩
    · intro m w2 post e hm
      rcases m with _ | ⟨x, m⟩
      · rfl
      · simp at e
        exact absurd h0 (hm w0 (by simp [e.1]))
    · intro pre w1 mid w2 post e _
      rcases pre with _ | ⟨p1, _ | ⟨p2, _ | ⟨p3, pre⟩⟩⟩
      · rcases mid with _ | ⟨m1, _ | ⟨m2, mid⟩⟩
        · simp at e
        · simp at e
        · simp at e
          exact absurd e.2.2.2 (key mid w2 post)
      · simp at e
      · simp at e
      · simp at e
        exact absurd e.2.2.2 (key pre w1 _)
  · intro w0 ws now0 cs r h0 _ ih
    refine ⟨?_, ?_⟩
    · intro m w2 post e hm
      rcases m with _ | ⟨x, m⟩
      · rfl
      · simp at e
        exact absurd h0 (hm w0 (by simp [e.1]))
    · intro pre w1 mid w2 post e hmid
      rcases pre with _ | ⟨p1, _ | ⟨p2, _ | ⟨p3, pre⟩⟩⟩
      · rcases mid with _ | ⟨m1, _ | ⟨m2, mid⟩⟩
        · simp at e
        · simp at e
        · simp at e
          obtain ⟨e0, e1, e2, e3⟩ := e
          have hz := ih.1 mid w2 post e3 (fun w hw => hmid w (by simp [hw]))
          rw [← e0, if_pos h0, ← e1, ← e2]
          simp [slept, hz]
      · simp at e
      · simp at e
      · simp at e
        exact ih.2 pre w1 mid w2 post e.2.2.2 hmid
  · intro w0 ws cs r hn0 _ _ ih
    refine ⟨?_, ?_⟩
    · intro m w2 post e hm
      rcases m with _ | ⟨x, m⟩
      · rfl
      · simp at e
        have hz := ih.1 m w2 post e.2 (fun w hw => hm w (by simp [hw]))
        rw [← e.1, slept_cons_waitpid, hz]
    · intro pre w1 mid w2 post e hmid
      rcases pre with _ | ⟨p1, pre⟩
      · simp at e
        rw [← e.1, if_neg hn0]
        exact ih.1 mid w2 post e.2 hmid
      · simp at e
        exact ih.2 pre w1 mid w2 post e.2 hmid
  · intro w0 ws cs hn0 _
    refine ⟨?_, ?_⟩
    · intro m w2 post e hm
      rcases m with _ | ⟨x, m⟩
      · rfl
      · simp at e
        exact absurd e.2 (key m w2 post)
    · intro pre w1 mid w2 post e _
      rcases pre with _ | ⟨p1, pre⟩
      · simp at e
        exact absurd e.2 (key mid w2 post)
      · simp at e
        exact absurd e.2 (key pre w1 _)
  · intro w0 ws cs hn0 _
    refine ⟨?_, ?_⟩
    · intro m w2 post e hm
      rcases m with _ | ⟨x, m⟩
      · rfl
      · simp at e
        exact absurd e.2 (key m w2 post)
    · intro pre w1 mid w2 post e _
      rcases pre with _ | ⟨p1, pre⟩
      · simp at e
        exact absurd e.2 (key mid w2 post)
      · simp at e
        exact absurd e.2 (key pre w1 _)

theorem gint64_add_deadline (t : Int) (h1 : -9223372036854775808 ≤ t)
    (h2 : t + 2000000 ≤ 9223372036854775807) : gint64_add t 2000000 = t + 2000000 := by
  unfold gint64_add
  omega

theorem cleanup_finish_no_poll (env : CleanupEnv) (w : WaitResult) :
    SEv.waitpid w ∉ (cleanup_finish env).2 := by
  unfold cleanup_finish; split <;> simp

theorem cleanup_finish_no_clock (env : CleanupEnv) (c : Int) :
    SEv.monotonic_time c ∉ (cleanup_finish env).2 := by
  unfold cleanup_finish; split <;> simp

theorem cleanup_finish_no_kill (env : CleanupEnv) (p : Int) (sg : Signal) :
    SEv.kill p sg ∉ (cleanup_finish env).2 := by
  unfold cleanup_finish; split <;> simp

/-- Shape of a teardown of a handle with a valid pid, once the first clock
reading is there: the fixed prologue, the wait loop, and an epilogue `F` that
is only present when the loop was left through `ret == info->pid`. -/
theorem cleanup_valid_shape (INVAL : Int) (i : NMTstcServiceInfo) (env : CleanupEnv)
    (hpid : i.pid ≠ INVAL) (t : Int) (cs : List Int) (hc : env.clocks = t :: cs) :
    ∃ F, (nmtstc_service_cleanup INVAL (some i) env).2
        = SEv.nm_close i.keepalive_fd :: SEv.clear_proxy :: SEv.kill i.pid Signal.SIGTERM
            :: SEv.monotonic_time t :: ((again_wait i.pid t env.waits cs).2 ++ F)
      ∧ (∀ w, SEv.waitpid w ∉ F) ∧ (∀ c, SEv.monotonic_time c ∉ F) ∧ (∀ p sg, SEv.kill p sg ∉ F)
      ∧ ((again_wait i.pid t env.waits cs).1 = Status.returned ∨
          (F = [] ∧ (nmtstc_service_cleanup INVAL (some i) env).1 = (again_wait i.pid t env.waits cs).1)) := by
  cases hst : (again_wait i.pid t env.waits cs).1 with
  | returned =>
    refine ⟨(cleanup_finish env).2, ?_, cleanup_finish_no_poll env, cleanup_finish_no_clock env,
      cleanup_finish_no_kill env, Or.inl rfl⟩
    simp [nmtstc_service_cleanup, hpid, hc, hst]
  | aborted =>
    refine ⟨[], ?_, by simp, by simp, by simp, Or.inr ⟨rfl, ?_⟩⟩ <;>
      simp [nmtstc_service_cleanup, hpid, hc, hst]
  | pending =>
    refine ⟨[], ?_, by simp, by simp, by simp, Or.inr ⟨rfl, ?_⟩⟩ <;>
      simp [nmtstc_service_cleanup, hpid, hc, hst]

theorem cleanup_invalid_pid (INVAL : Int) (i : NMTstcServiceInfo) (env : CleanupEnv)
    (hpid : i.pid = INVAL) :
    nmtstc_service_cleanup INVAL (some i) env
      = ((cleanup_finish env).1, SEv.nm_close i.keepalive_fd :: SEv.clear_proxy :: (cleanup_finish env).2) := by
  simp [nmtstc_service_cleanup, hpid]

theorem again_wait_first (pid t : Int) (w : WaitResult) (ws : List WaitResult) (cs : List Int) :
    ∃ rest, (again_wait pid t (w :: ws) cs).2 = SEv.waitpid w :: rest := by
  by_cases h0 : w.ret = 0
  · cases cs with
    | nil => exact ⟨[], by simp [again_wait, h0]⟩
    | cons now cs =>
      by_cases hl : gint64_add t 2000000 < now
      · exact ⟨_, by simp [again_wait, h0, hl]; rfl⟩
      · exact ⟨_, by simp [again_wait, h0, hl]; rfl⟩
  · by_cases he : w.ret = -1 ∧ w.eintr = true
    · exact ⟨_, by simp [again_wait, h0, he]; rfl⟩
    · by_cases hp : w.ret = pid
      · exact ⟨[], by simp only [again_wait, if_neg h0, if_neg he, if_pos hp]⟩
      · exact ⟨[], by simp only [again_wait, if_neg h0, if_neg he, if_neg hp]⟩

/-- A teardown of a handle with a valid pid begins with closing the keep-alive
descriptor, releasing the proxy and SIGTERM, and sends SIGTERM nowhere else. -/
theorem cleanup_valid_starts_with_sigterm (INVAL : Int) (i : NMTstcServiceInfo)
    (env : CleanupEnv) (hpid : i.pid ≠ INVAL) :
    ∃ rest, (nmtstc_service_cleanup INVAL (some i) env).2
        = SEv.nm_close i.keepalive_fd :: SEv.clear_proxy :: SEv.kill i.pid Signal.SIGTERM :: rest
      ∧ ∀ p, SEv.kill p Signal.SIGTERM ∉ rest := by
  cases hc : env.clocks with
  | nil =>
    exact ⟨[], by simp [nmtstc_service_cleanup, hpid, hc], by simp⟩
  | cons t cs =>
    obtain ⟨F, htr, hFw, hFc, hFk, hst⟩ := cleanup_valid_shape INVAL i env hpid t cs hc
    refine ⟨_, htr, ?_⟩
    intro p h
    simp only [List.mem_cons, List.mem_append] at h
    rcases h with h | h | h
    · cases h
    · exact again_wait_no_sigterm i.pid t env.waits cs p h
    · exact hFk p _ h

/-! ## Lemmas on the keyed data and the key loop -/

theorem digitChar_toNat (d : Nat) (h : d < 10) : (Nat.digitChar d).toNat - 48 = d := by
  interval_cases d <;> rfl

/-- Reading the decimal digits back gives the number: the accumulator form. -/
theorem toDigitsCore_decode (fuel : Nat) : ∀ (n : Nat) (ds : List Char), n < fuel →
    (Nat.toDigitsCore 10 fuel n ds).foldl (fun a c => a * 10 + (c.toNat - 48)) 0
      = ds.foldl (fun a c => a * 10 + (c.toNat - 48)) n := by
  induction fuel with
  | zero => intro n ds h; omega
  | succ fuel ih =>
    intro n ds h
    unfold Nat.toDigitsCore
    by_cases h0 : n / 10 = 0
    · simp only [h0, if_true, List.foldl_cons]
      rw [digitChar_toNat _ (Nat.mod_lt _ (by decide))]
      congr 1
      omega
    · simp only [h0, if_false]
      rw [ih (n / 10) _ (by omega)]
      simp only [List.foldl_cons]
      rw [digitChar_toNat _ (Nat.mod_lt _ (by decide))]
      congr 1
      omega

theorem repr_injective (n m : Nat) (h : Nat.repr n = Nat.repr m) : n = m := by
  have h' : Nat.toDigits 10 n = Nat.toDigits 10 m := by
    have := congrArg String.data h
    simpa [Nat.repr, List.asString] using this
  have hn := toDigitsCore_decode (n + 1) n [] (by omega)
  have hm := toDigitsCore_decode (m + 1) m [] (by omega)
  simp only [List.foldl_nil] at hn hm
  unfold Nat.toDigits at h'
  rw [← hn, ← hm, h']

theorem extra_context_key_injective (j k : Nat) (h : extra_context_key j = extra_context_key k) :
    j = k := by
  apply repr_injective
  have := congrArg String.data h
  simp only [extra_context_key, String.data_append] at this
  exact String.ext (List.append_cancel_left this)

theorem get_data_set_data (d : GData) (key : String) (v : Nat) (key' : String) :
    g_object_get_data (g_object_set_data_full d key v) key'
      = if key = key' then some v else g_object_get_data d key' := by
  induction d with
  | nil => simp [g_object_set_data_full, g_object_get_data]
  | cons e rest ih =>
    obtain ⟨k, x⟩ := e
    by_cases hk : k = key
    · subst hk
      by_cases hk' : k = key' <;> simp [g_object_set_data_full, g_object_get_data, hk']
    · by_cases hk' : k = key'
      · subst hk'
        simp [g_object_set_data_full, g_object_get_data, hk, Ne.symm hk]
      · simp [g_object_set_data_full, g_object_get_data, hk, hk', ih]

theorem get_data_mem_keys (d : GData) (key : String) (h : g_object_get_data d key ≠ none) :
    key ∈ d.map Prod.fst := by
  induction d with
  | nil => simp [g_object_get_data] at h
  | cons e rest ih =>
    obtain ⟨k, x⟩ := e
    by_cases hk : k = key
    · simp [hk]
    · simp only [g_object_get_data, hk, if_false] at h
      simp [ih h]

/-- Among the indices `0 .. length` at least one key is not in use. -/
theorem exists_unused_key (d : GData) :
    ∃ m, m ≤ d.length ∧ g_object_get_data d (extra_context_key m) = none := by
  by_contra hcon
  push_neg at hcon
  have hsub : (List.range (d.length + 1)).map extra_context_key ⊆ d.map Prod.fst := by
    intro key hkey
    obtain ⟨m, hm, rfl⟩ := List.mem_map.1 hkey
    exact get_data_mem_keys d _ (hcon m (by simpa [Nat.lt_succ_iff] using hm))
  have hnd : ((List.range (d.length + 1)).map extra_context_key).Nodup :=
    (List.nodup_range _).map (fun j k h => extra_context_key_injective j k h)
  have := (List.subperm_of_subset hnd hsub).length_le
  simp at this

/-- The loop leaves at the first index, from `key_idx` on, whose key is not in use. -/
theorem extra_context_key_idx_eq (d : GData) (m : Nat) (hm : m < 4294967296)
    (hfree : g_object_get_data d (extra_context_key m) = none) :
    ∀ (fuel key_idx : Nat), key_idx ≤ m → m - key_idx < fuel →
      (∀ j, key_idx ≤ j → j < m → g_object_get_data d (extra_context_key j) ≠ none) →
      extra_context_key_idx d fuel key_idx = some m := by
  intro fuel
  induction fuel with
  | zero => intro k _ h; omega
  | succ fuel ih =>
    intro k hk hf hused
    by_cases hkm : k = m
    · subst hkm
      simp [extra_context_key_idx, hfree]
    · have hlt : k < m := by omega
      have hne := hused k (le_refl k) hlt
      have hmod : (k + 1) % 4294967296 = k + 1 := Nat.mod_eq_of_lt (by omega)
      have hsome : (g_object_get_data d (extra_context_key k)).isNone = false := by
        cases hg : g_object_get_data d (extra_context_key k) with
        | none => exact absurd hg hne
        | some v => rfl
      simp only [extra_context_key_idx, hsome, hmod]
      exact ih (k + 1) (by omega) (by omega) (fun j hj hjm => hused j (by omega) hjm)

/-- One attachment on data below the size limit of a `GData` array: the loop
leaves at the least index whose key is not in use. -/
theorem extra_context_set_data_least (data : GData) (source : Nat)
    (hlen : data.length < 4294967296) :
    ∃ k, extra_context_set_data data source
          = some (k, g_object_set_data_full data (extra_context_key k) source)
      ∧ k < 4294967296
      ∧ g_object_get_data data (extra_context_key k) = none
      ∧ ∀ j, j < k → g_object_get_data data (extra_context_key j) ≠ none := by
  classical
  have hex : ∃ m, g_object_get_data data (extra_context_key m) = none := by
    obtain ⟨m, -, hm⟩ := exists_unused_key data
    exact ⟨m, hm⟩
  have hle : Nat.find hex ≤ data.length := by
    obtain ⟨m, hml, hm⟩ := exists_unused_key data
    exact le_trans (Nat.find_min' hex hm) hml
  have hfree := Nat.find_spec hex
  have hused : ∀ j, j < Nat.find hex → g_object_get_data data (extra_context_key j) ≠ none :=
    fun j hj => Nat.find_min hex hj
  have hloop := extra_context_key_idx_eq data (Nat.find hex) (by omega) hfree 4294967296 0
    (Nat.zero_le _) (by omega) (fun j _ hj => hused j hj)
  exact ⟨Nat.find hex, by simp [extra_context_set_data, hloop], by omega, hfree, hused⟩

/-- Successive attachments on data whose keys in use are exactly those of the
indices below `j`. -/
theorem extra_context_set_data_successive (sources : List Nat) :
    ∀ (j : Nat) (data : GData), j + sources.length ≤ 4294967296 →
      (∀ k, j ≤ k → g_object_get_data data (extra_context_key k) = none) →
      (∀ k, k < j → g_object_get_data data (extra_context_key k) ≠ none) →
      ∃ data', sources.foldlM (fun d src => (extra_context_set_data d src).map Prod.snd) data
          = some data'
        ∧ ∀ k, g_object_get_data data' (extra_context_key k)
            = if k < j then g_object_get_data data (extra_context_key k) else sources[k - j]? := by
  induction sources with
  | nil =>
    intro j data _ hfree _
    refine ⟨data, rfl, ?_⟩
    intro k
    by_cases hk : k < j
    · simp [hk]
    · simp [hk, hfree k (by omega)]
  | cons src rest ih =>
    intro j data hlen hfree hused
    simp only [List.length_cons] at hlen
    have hloop := extra_context_key_idx_eq data j (by omega) (hfree j (le_refl j)) 4294967296 0
      (Nat.zero_le _) (by omega) (fun k _ hk => hused k hk)
    have hget : ∀ k, g_object_get_data (g_object_set_data_full data (extra_context_key j) src)
        (extra_context_key k) = if k = j then some src else g_object_get_data data (extra_context_key k) := by
      intro k
      rw [get_data_set_data]
      by_cases hk : k = j
      · simp [hk]
      · have : extra_context_key j ≠ extra_context_key k :=
          fun h => hk (extra_context_key_injective j k h).symm
        simp [hk, this]
    obtain ⟨data', hfold, hkeys⟩ := ih (j + 1)
      (g_object_set_data_full data (extra_context_key j) src) (by omega)
      (fun k hk => by rw [hget, if_neg (by omega)]; exact hfree k (by omega))
      (fun k hk => by
        rw [hget]
        by_cases hkj : k = j
        · simp [hkj]
        · rw [if_neg hkj]; exact hused k (by omega))
    refine ⟨data', ?_, ?_⟩
    · have hstep : extra_context_set_data data src
          = some (j, g_object_set_data_full data (extra_context_key j) src) := by
        simp [extra_context_set_data, hloop]
      rw [List.foldlM_cons, hstep]
      exact hfold
    · intro k
      rw [hkeys, hget]
      by_cases h1 : k < j
      · simp [h1, Nat.lt_succ_of_lt h1, Nat.ne_of_lt h1]
      · by_cases h2 : k = j
        · subst h2
          simp
        · have h3 : ¬ k < j + 1 := by omega
          obtain ⟨i, hi⟩ : ∃ i, k - j = i + 1 := ⟨k - j - 1, by omega⟩
          have h4 : k - (j + 1) = i := by omega
          simp [h1, h2, h3, hi, h4]

/-! ## Lemmas on the client bootstrap -/

/-- A completed synchronous construction: it used three boolean draws (guard
source, two-step or factory, error slot), no 32-bit draw, and did nothing but
attach the guard source and call the synchronous constructor. -/
theorem client_new_sync_run (s : TState) (c : NMClient) (s' : TState)
    (h : _nmtstc_client_new true s = some (c, s')) :
    ∃ guard two_step error_slot bs, s.rand_bool = guard :: two_step :: error_slot :: bs
      ∧ c = { data := [] }
      ∧ s' = { rand_uint32 := s.rand_uint32, rand_bool := bs, next_id := s.next_id,
               trace := s.trace ++ ((if guard then [CEv.guard_attach] else [])
                 ++ (if two_step then [CEv.object_new, CEv.initable_init error_slot]
                     else [CEv.client_new error_slot])) } := by
  obtain ⟨us, bs, id, tr⟩ := s
  rcases bs with _ | ⟨g, _ | ⟨t, _ | ⟨e, bs⟩⟩⟩
  · simp [_nmtstc_client_new, nmtst_get_rand_bool] at h
  · cases g <;> simp [_nmtstc_client_new, nmtst_get_rand_bool, emit] at h
  · cases g <;> cases t <;> simp [_nmtstc_client_new, nmtst_get_rand_bool, emit] at h
  · refine ⟨g, t, e, bs, rfl, ?_⟩
    cases g <;> cases t <;> simp [_nmtstc_client_new, nmtst_get_rand_bool, emit] at h <;>
      simp [← h.1, ← h.2]

/-- A completed asynchronous construction: one boolean draw (error slot), and
the asynchronous constructor run to completion on a loop. -/
theorem client_new_async_run (s : TState) (c : NMClient) (s' : TState)
    (h : _nmtstc_client_new false s = some (c, s')) :
    ∃ error_slot bs, s.rand_bool = error_slot :: bs
      ∧ c = { data := [] }
      ∧ s' = { rand_uint32 := s.rand_uint32, rand_bool := bs, next_id := s.next_id,
               trace := s.trace ++ [CEv.client_new_async, CEv.loop_run,
                 CEv.client_new_finish error_slot, CEv.loop_quit] } := by
  obtain ⟨us, bs, id, tr⟩ := s
  rcases bs with _ | ⟨e, bs⟩
  · simp [_nmtstc_client_new, _nmtstc_client_new_cb, nmtst_get_rand_bool, emit] at h
  · refine ⟨e, bs, rfl, ?_⟩
    simp [_nmtstc_client_new, _nmtstc_client_new_cb, nmtst_get_rand_bool, emit] at h
    simp [← h.1, ← h.2]

/-- The first thing a completed construction does is not a context push. -/
theorem client_new_direct_first (sync : Bool) (s : TState) (c : NMClient) (s' : TState)
    (h : _nmtstc_client_new sync s = some (c, s')) :
    ∃ e rest, s'.trace = s.trace ++ e :: rest ∧ ∀ ctx, e ≠ CEv.context_push ctx := by
  cases sync with
  | true =>
    obtain ⟨g, t, e, bs, -, -, hs⟩ := client_new_sync_run s c s' h
    subst hs
    cases g <;> cases t <;> simp
  | false =>
    obtain ⟨e, bs, -, -, hs⟩ := client_new_async_run s c s' h
    subst hs
    simp

/-- Unfolding `nmtstc_client_new` when the first draw selects the nested-context variant. -/
theorem client_new_unfold_nested (fuel : Nat) (allow : Bool) (r : Nat) (us : List Nat)
    (bs : List Bool) (id : Nat) (tr : List CEv) (hr : r % 5 = 0) :
    nmtstc_client_new (fuel + 1) allow ⟨r :: us, bs, id, tr⟩
      = _nmtstc_client_new_extra_context (nmtstc_client_new fuel) ⟨us, bs, id, tr⟩ := by
  simp [nmtstc_client_new, nmtst_get_rand_uint32, hr]

/-- Unfolding `nmtstc_client_new` when the caller does not allow iterating. -/
theorem client_new_unfold_no_iterate (fuel : Nat) (r : Nat) (us : List Nat)
    (bs : List Bool) (id : Nat) (tr : List CEv) (hr : r % 5 ≠ 0) :
    nmtstc_client_new (fuel + 1) false ⟨r :: us, bs, id, tr⟩
      = _nmtstc_client_new true ⟨us, bs, id, tr⟩ := by
  simp [nmtstc_client_new, nmtst_get_rand_uint32, hr]

/-- Unfolding `nmtstc_client_new` when the caller allows iterating. -/
theorem client_new_unfold_iterate (fuel : Nat) (r m : Nat) (us : List Nat) (b : Bool)
    (bs : List Bool) (id : Nat) (tr : List CEv) (hr : r % 5 ≠ 0) :
    nmtstc_client_new (fuel + 1) true ⟨r :: m :: us, b :: bs, id, tr⟩
      = if m % 3 = 0 then
          _nmtstc_client_new_inside_loop (nmtstc_client_new fuel) b ⟨us, bs, id, tr⟩
        else _nmtstc_client_new b ⟨us, bs, id, tr⟩ := by
  by_cases hm : m % 3 = 0 <;>
    simp [nmtstc_client_new, nmtst_get_rand_uint32, nmtst_get_rand_bool, hr, hm]

/-- Completed runs of the nested-context variant: the context push, a
completed run of the recursive call with `allow_iterate_main_context = TRUE`,
then the integration source, the pop, the attachment and the keyed data. -/
theorem extra_context_run (self : Bool → TState → Option (NMClient × TState)) (s : TState)
    (c : NMClient) (s' : TState) :
    _nmtstc_client_new_extra_context self s = some (c, s') ↔
      ∃ c0 s0 k data,
        self true { s with next_id := s.next_id + 1,
                           trace := s.trace ++ [CEv.context_push s.next_id] } = some (c0, s0)
        ∧ extra_context_set_data c0.data s.next_id = some (k, data)
        ∧ c = { data := data }
        ∧ s' = { s0 with trace := s0.trace ++ [CEv.integrate_source s.next_id,
                   CEv.context_pop s.next_id, CEv.source_attach s.next_id,
                   CEv.set_data (extra_context_key k) s.next_id] } := by
  simp only [_nmtstc_client_new_extra_context, emit]
  constructor
  · intro h
    split at h
    · cases h
    · rename_i c0 s0 h0
      split at h
      · cases h
      · rename_i k data hk
        simp only [Option.some.injEq, Prod.mk.injEq] at h
        refine ⟨c0, s0, k, data, h0, hk, h.1.symm, ?_⟩
        rw [← h.2]
        simp
  · rintro ⟨c0, s0, k, data, h0, hk, rfl, rfl⟩
    simp [h0, hk]

/-- Completed runs of the idle-dispatched variant: the idle source, the loop
run, a completed run of the recursive call with `d->sync` as its argument,
then the loop quit. -/
theorem inside_loop_run (self : Bool → TState → Option (NMClient × TState)) (sync : Bool)
    (s : TState) (c : NMClient) (s' : TState) :
    _nmtstc_client_new_inside_loop self sync s = some (c, s') ↔
      ∃ s0, self sync { s with trace := s.trace ++ [CEv.idle_attach sync, CEv.loop_run] }
          = some (c, s0)
        ∧ s' = { s0 with trace := s0.trace ++ [CEv.loop_quit] } := by
  simp only [_nmtstc_client_new_inside_loop, _nmtstc_client_new_inside_loop_do, emit,
    List.append_assoc, List.singleton_append]
  constructor
  · intro h
    split at h
    · cases h
    · rename_i c0 s0 h0
      simp only [Option.some.injEq, Prod.mk.injEq] at h
      obtain ⟨rfl, rfl⟩ := h
      exact ⟨s0, h0, rfl⟩
  · rintro ⟨s0, h0, rfl⟩
    simp [h0]

/-- Every completed run of `nmtstc_client_new` only appends to the trace. -/
theorem client_new_trace_extends (fuel : Nat) : ∀ (allow : Bool) (s : TState) (c : NMClient)
    (s' : TState), nmtstc_client_new fuel allow s = some (c, s') →
      ∃ new, s'.trace = s.trace ++ new := by
  induction fuel with
  | zero => intro allow s c s' h; simp [nmtstc_client_new] at h
  | succ fuel ih =>
    intro allow s c s' h
    obtain ⟨us, bs, id, tr⟩ := s
    rcases us with _ | ⟨r, us⟩
    · simp [nmtstc_client_new, nmtst_get_rand_uint32] at h
    by_cases hr : r % 5 = 0
    · rw [client_new_unfold_nested fuel allow r us bs id tr hr, extra_context_run] at h
      obtain ⟨c0, s0, k, data, h0, -, -, rfl⟩ := h
      obtain ⟨new, hnew⟩ := ih true _ c0 s0 h0
      refine ⟨[CEv.context_push id] ++ (new ++ [CEv.integrate_source id, CEv.context_pop id,
        CEv.source_attach id, CEv.set_data (extra_context_key k) id]), ?_⟩
      simp only [hnew, List.append_assoc]
    · cases allow with
      | false =>
        rw [client_new_unfold_no_iterate fuel r us bs id tr hr] at h
        obtain ⟨e, rest, he, -⟩ := client_new_direct_first true _ c s' h
        exact ⟨_, he⟩
      | true =>
        rcases bs with _ | ⟨b, bs⟩
        · simp [nmtstc_client_new, nmtst_get_rand_uint32, nmtst_get_rand_bool, hr] at h
        rcases us with _ | ⟨m, us⟩
        · simp [nmtstc_client_new, nmtst_get_rand_uint32, nmtst_get_rand_bool, hr] at h
        rw [client_new_unfold_iterate fuel r m us b bs id tr hr] at h
        by_cases hm : m % 3 = 0
        · rw [if_pos hm, inside_loop_run] at h
          obtain ⟨s0, h0, rfl⟩ := h
          obtain ⟨new, hnew⟩ := ih b _ c s0 h0
          refine ⟨[CEv.idle_attach b, CEv.loop_run] ++ (new ++ [CEv.loop_quit]), ?_⟩
          simp only [hnew, List.append_assoc]
        · rw [if_neg hm] at h
          obtain ⟨e, rest, he, -⟩ := client_new_direct_first b _ c s' h
          exact ⟨_, he⟩

theorem extra_context_set_data_empty (source : Nat) :
    extra_context_set_data [] source = some (0, [(extra_context_key 0, source)]) := by
  have h := extra_context_key_idx_eq [] 0 (by decide) rfl 4294967296 0 (le_refl 0) (by decide)
    (fun j _ hj => absurd hj (Nat.not_lt_zero j))
  simp [extra_context_set_data, h, g_object_set_data_full]

/-! ## Service lifecycle: the claims -/

/-- C2: for a handle with a valid pid and any sequences of `waitpid` answers
and clock readings (the first reading `t` such that `t + 2000000` fits a
`gint64`), `nmtstc_service_cleanup` sends SIGTERM exactly once, before any
poll; it sends SIGKILL and aborts exactly when some poll returned 0 and the
clock reading taken for that poll is more than 2000000 microseconds after
the reading `t` taken right after SIGTERM; and it gets to the bus-name check
only after a poll that returned the child's own pid, with no SIGKILL sent. -/
theorem cleanup_sigterm_once_sigkill_on_deadline (INVAL : Int) (i : NMTstcServiceInfo)
    (env : CleanupEnv) (hpid : i.pid ≠ INVAL)
    (hclk : ∀ t ∈ env.clocks.head?, -9223372036854775808 ≤ t ∧ t + 2000000 ≤ 9223372036854775807) :
    (∃ rest, (nmtstc_service_cleanup INVAL (some i) env).2
        = SEv.nm_close i.keepalive_fd :: SEv.clear_proxy :: SEv.kill i.pid Signal.SIGTERM :: rest
      ∧ ∀ p, SEv.kill p Signal.SIGTERM ∉ rest)
    ∧ ((SEv.kill i.pid Signal.SIGKILL ∈ (nmtstc_service_cleanup INVAL (some i) env).2
          ∧ (nmtstc_service_cleanup INVAL (some i) env).1 = Status.aborted)
        ↔ ∃ t pre w now post, env.clocks.head? = some t
            ∧ (nmtstc_service_cleanup INVAL (some i) env).2
              = SEv.nm_close i.keepalive_fd :: SEv.clear_proxy :: SEv.kill i.pid Signal.SIGTERM
                  :: SEv.monotonic_time t :: (pre ++ SEv.waitpid w :: SEv.monotonic_time now :: post)
            ∧ w.ret = 0 ∧ t + 2000000 < now)
    ∧ (∀ p, SEv.kill p Signal.SIGKILL ∈ (nmtstc_service_cleanup INVAL (some i) env).2 →
        p = i.pid ∧ (nmtstc_service_cleanup INVAL (some i) env).1 = Status.aborted)
    ∧ ((∃ b, SEv.name_exists b ∈ (nmtstc_service_cleanup INVAL (some i) env).2) →
        (∃ w, SEv.waitpid w ∈ (nmtstc_service_cleanup INVAL (some i) env).2 ∧ w.ret = i.pid)
          ∧ ∀ p, SEv.kill p Signal.SIGKILL ∉ (nmtstc_service_cleanup INVAL (some i) env).2) := by
  cases hc : env.clocks with
  | nil =>
    have htr : nmtstc_service_cleanup INVAL (some i) env
        = (Status.pending, [SEv.nm_close i.keepalive_fd, SEv.clear_proxy, SEv.kill i.pid Signal.SIGTERM]) := by
      simp [nmtstc_service_cleanup, hpid, hc]
    rw [htr]
    refine ⟨⟨[], rfl, by simp⟩, ?_, by simp, by simp⟩
    constructor
    · intro h; simp at h
    · rintro ⟨t, pre, w, now, post, h, -⟩; simp at h
  | cons t cs =>
    obtain ⟨h1, h2⟩ := hclk t (by simp [hc])
    have hadd := gint64_add_deadline t h1 h2
    obtain ⟨F, htr, hFw, hFc, hFk, hst⟩ := cleanup_valid_shape INVAL i env hpid t cs hc
    have hkill : ∀ p, SEv.kill p Signal.SIGKILL ∈ (nmtstc_service_cleanup INVAL (some i) env).2 →
        SEv.kill p Signal.SIGKILL ∈ (again_wait i.pid t env.waits cs).2 := by
      intro p h
      rw [htr] at h
      simpa [hFk] using h
    have hkill_pid : ∀ p, SEv.kill p Signal.SIGKILL ∈ (again_wait i.pid t env.waits cs).2 → p = i.pid := by
      intro p
      exact again_wait_sigkill_pid i.pid t env.waits cs p
    have habort : ∀ p, SEv.kill p Signal.SIGKILL ∈ (nmtstc_service_cleanup INVAL (some i) env).2 →
        (nmtstc_service_cleanup INVAL (some i) env).1 = Status.aborted := by
      intro p h
      have ha := again_wait_sigkill_aborted i.pid t env.waits cs p (hkill p h)
      rcases hst with hr | ⟨-, hs⟩
      · rw [ha] at hr; cases hr
      · rw [hs, ha]
    refine ⟨⟨_, htr, ?_⟩, ?_, ?_, ?_⟩
    · intro p h
      simp only [List.mem_cons, List.mem_append] at h
      rcases h with h | h | h
      · cases h
      · exact again_wait_no_sigterm i.pid t env.waits cs p h
      · exact hFk p _ h
    · constructor
      · rintro ⟨hk, -⟩
        obtain ⟨pre, w, now, post, e, h0, hl⟩ := again_wait_sigkill_late i.pid t env.waits cs (hkill _ hk)
        refine ⟨t, pre, w, now, post ++ F, by simp, ?_, h0, by rw [← hadd]; exact hl⟩
        rw [htr, e]; simp
      · rintro ⟨t', pre, w, now, post, ht, e, h0, hl⟩
        have htt : t' = t := by simpa using ht.symm
        subst htt
        rw [htr] at e
        simp only [List.cons.injEq, true_and] at e
        have hk := again_wait_late_sigkill i.pid t' F hFw hFc env.waits cs pre w now post e h0
          (by rw [hadd]; exact hl)
        have hk' : SEv.kill i.pid Signal.SIGKILL ∈ (nmtstc_service_cleanup INVAL (some i) env).2 := by
          rw [htr]; simp [hk]
        exact ⟨hk', habort _ hk'⟩
    · intro p h
      exact ⟨hkill_pid p (hkill p h), habort p h⟩
    · rintro ⟨b, hb⟩
      have hret : (again_wait i.pid t env.waits cs).1 = Status.returned := by
        rcases hst with hr | ⟨hF, -⟩
        · exact hr
        · rw [htr, hF] at hb
          simp at hb
          exact absurd hb (again_wait_no_name_exists i.pid t env.waits cs b)
      obtain ⟨w, hw, hp⟩ := again_wait_returned i.pid t env.waits cs hret
      refine ⟨⟨w, by rw [htr]; simp [hw], hp⟩, ?_⟩
      intro p h
      have := again_wait_sigkill_aborted i.pid t env.waits cs p (hkill p h)
      rw [hret] at this
      cases this

/-- Witness for C2: a child that is still running at a reading 2000001
microseconds after the first one is killed, and the run aborts. -/
theorem cleanup_sigterm_once_sigkill_on_deadline_witness :
    (SEv.kill 5 Signal.SIGKILL ∈ (nmtstc_service_cleanup (-1) (some ⟨5, 3, true⟩)
        ⟨[⟨0, false⟩, ⟨0, false⟩], [100, 2000100, 2000101], false⟩).2
      ∧ (nmtstc_service_cleanup (-1) (some ⟨5, 3, true⟩)
        ⟨[⟨0, false⟩, ⟨0, false⟩], [100, 2000100, 2000101], false⟩).1 = Status.aborted)
    ↔ ∃ t pre w now post, [(100 : Int), 2000100, 2000101].head? = some t
        ∧ (nmtstc_service_cleanup (-1) (some ⟨5, 3, true⟩)
            ⟨[⟨0, false⟩, ⟨0, false⟩], [100, 2000100, 2000101], false⟩).2
          = SEv.nm_close 3 :: SEv.clear_proxy :: SEv.kill 5 Signal.SIGTERM
              :: SEv.monotonic_time t :: (pre ++ SEv.waitpid w :: SEv.monotonic_time now :: post)
        ∧ w.ret = 0 ∧ t + 2000000 < now :=
  (cleanup_sigterm_once_sigkill_on_deadline (-1) ⟨5, 3, true⟩
    ⟨[⟨0, false⟩, ⟨0, false⟩], [100, 2000100, 2000101], false⟩ (by decide)
    (by intro t ht; simp at ht; subst ht; decide)).2.1

/-- C9, as stated, fails: a child found running at two successive polls and
gone at the third is polled with only 20000 microseconds slept between the
first two polls, less than the 50000 microseconds of a 20 Hz bound. -/
theorem cleanup_poll_gap_50000_counterexample :
    ¬ PollGapAtLeast 50000 (nmtstc_service_cleanup (-1) (some ⟨5, 3, true⟩)
        ⟨[⟨0, false⟩, ⟨0, false⟩, ⟨5, false⟩], [100, 200, 300], false⟩).2 := by
  intro h
  have h' := h [SEv.nm_close 3, SEv.clear_proxy, SEv.kill 5 Signal.SIGTERM, SEv.monotonic_time 100]
    ⟨0, false⟩ [SEv.monotonic_time 200, SEv.usleep 20000] ⟨0, false⟩
    [SEv.monotonic_time 300, SEv.usleep 20000, SEv.waitpid ⟨5, false⟩,
     SEv.name_exists false, SEv.clear_bus, SEv.free_info] (by decide) (by simp) rfl rfl
  revert h'
  decide

/-- C9, amended: in every run of `nmtstc_service_cleanup`, take a poll and a
later poll with no poll that found the child running in between. When the
first of the two found the child still running, exactly
`G_USEC_PER_SEC / 50` = 20000 microseconds are slept between them (and when
they are directly successive, the code reads the clock, sleeps, and does
nothing else); when the first did not find the child running (the retry
after EINTR), nothing is slept between them. In particular two successive
polls that both find the child running are 20000 microseconds of sleep
apart. -/
theorem cleanup_sleep_between_running_polls (INVAL : Int) (info : Option NMTstcServiceInfo)
    (env : CleanupEnv) :
    (∀ pre w1 mid w2 post,
      (nmtstc_service_cleanup INVAL info env).2
        = pre ++ SEv.waitpid w1 :: (mid ++ SEv.waitpid w2 :: post) →
      (∀ w, SEv.waitpid w ∈ mid → w.ret ≠ 0) →
      (w1.ret = 0 → slept mid = G_USEC_PER_SEC / 50) ∧ (w1.ret ≠ 0 → slept mid = 0))
    ∧ (∀ pre w1 mid w2 post,
      (nmtstc_service_cleanup INVAL info env).2
        = pre ++ SEv.waitpid w1 :: (mid ++ SEv.waitpid w2 :: post) →
      (∀ w, SEv.waitpid w ∉ mid) → w1.ret = 0 →
      ∃ now, mid = [SEv.monotonic_time now, SEv.usleep (G_USEC_PER_SEC / 50)])
    ∧ G_USEC_PER_SEC / 50 = 20000
    ∧ PollGapAtLeast 20000 (nmtstc_service_cleanup INVAL info env).2 := by
  have loop : ∀ pre w1 mid w2 post,
      (nmtstc_service_cleanup INVAL info env).2
        = pre ++ SEv.waitpid w1 :: (mid ++ SEv.waitpid w2 :: post) →
      ∃ pid t F cs pre', (∀ w, SEv.waitpid w ∉ F)
        ∧ (again_wait pid t env.waits cs).2 ++ F
            = pre' ++ SEv.waitpid w1 :: (mid ++ SEv.waitpid w2 :: post) := by
    intro pre w1 mid w2 post e
    cases info with
    | none => simp [nmtstc_service_cleanup] at e
    | some i =>
      by_cases hpid : i.pid = INVAL
      · rw [cleanup_invalid_pid INVAL i env hpid] at e
        simp only at e
        have : SEv.waitpid w1 ∈ SEv.nm_close i.keepalive_fd :: SEv.clear_proxy :: (cleanup_finish env).2 := by
          rw [e]; simp
        simp [cleanup_finish_no_poll] at this
      · cases hc : env.clocks with
        | nil =>
          have : SEv.waitpid w1 ∈ (nmtstc_service_cleanup INVAL (some i) env).2 := by rw [e]; simp
          simp [nmtstc_service_cleanup, hpid, hc] at this
        | cons t cs =>
          obtain ⟨F, htr, hFw, -, -, -⟩ := cleanup_valid_shape INVAL i env hpid t cs hc
          rw [htr] at e
          rcases pre with _ | ⟨p1, _ | ⟨p2, _ | ⟨p3, _ | ⟨p4, pre⟩⟩⟩⟩
          · simp at e
          · simp at e
          · simp at e
          · simp at e
          · simp only [List.cons_append, List.cons.injEq] at e
            exact ⟨i.pid, t, F, cs, pre, hFw, e.2.2.2.2⟩
  have hsl : ∀ pre w1 mid w2 post,
      (nmtstc_service_cleanup INVAL info env).2
        = pre ++ SEv.waitpid w1 :: (mid ++ SEv.waitpid w2 :: post) →
      (∀ w, SEv.waitpid w ∈ mid → w.ret ≠ 0) →
      slept mid = if w1.ret = 0 then 20000 else 0 := by
    intro pre w1 mid w2 post e hmid
    obtain ⟨pid, t, F, cs, pre', hFw, e'⟩ := loop pre w1 mid w2 post e
    exact again_wait_slept_between pid t F hFw env.waits cs pre' w1 mid w2 post e' hmid
  have hex : ∀ pre w1 mid w2 post,
      (nmtstc_service_cleanup INVAL info env).2
        = pre ++ SEv.waitpid w1 :: (mid ++ SEv.waitpid w2 :: post) →
      (∀ w, SEv.waitpid w ∉ mid) → w1.ret = 0 →
      ∃ now, mid = [SEv.monotonic_time now, SEv.usleep 20000] := by
    intro pre w1 mid w2 post e hmid h0
    obtain ⟨pid, t, F, cs, pre', hFw, e'⟩ := loop pre w1 mid w2 post e
    obtain ⟨now, mid', hm, hnil⟩ := again_wait_between pid t F hFw env.waits cs pre' w1 mid w2 post e' h0
    exact ⟨now, by rw [hm, hnil hmid]⟩
  have hG : G_USEC_PER_SEC / 50 = 20000 := by decide
  refine ⟨?_, ?_, hG, ?_⟩
  · intro pre w1 mid w2 post e hmid
    have h := hsl pre w1 mid w2 post e hmid
    rw [hG]
    constructor
    · intro h0; rw [h, if_pos h0]
    · intro h0; rw [h, if_neg h0]
  · rw [hG]; exact hex
  · intro pre w1 mid w2 post e hmid h0 _
    have h := hsl pre w1 mid w2 post e (fun w hw => absurd hw (hmid w))
    rw [h, if_pos h0]

/-- Witness for C9 amended: the first two polls of a child found running twice
are 20000 microseconds of sleep apart. -/
theorem cleanup_sleep_between_running_polls_witness :
    slept [SEv.monotonic_time 200, SEv.usleep 20000] = G_USEC_PER_SEC / 50 :=
  ((cleanup_sleep_between_running_polls (-1) (some ⟨5, 3, true⟩)
      ⟨[⟨0, false⟩, ⟨0, false⟩, ⟨5, false⟩], [100, 200, 300], false⟩).1
    [SEv.nm_close 3, SEv.clear_proxy, SEv.kill 5 Signal.SIGTERM, SEv.monotonic_time 100]
    ⟨0, false⟩ [SEv.monotonic_time 200, SEv.usleep 20000] ⟨0, false⟩
    [SEv.monotonic_time 300, SEv.usleep 20000, SEv.waitpid ⟨5, false⟩,
     SEv.name_exists false, SEv.clear_bus, SEv.free_info] (by decide) (by simp)).1 rfl

/-- C10: `nmtstc_service_cleanup` on a null handle returns at once with no
effect at all. In general a signal is sent exactly when the handle is non-null
and holds a valid pid, a poll is made only then (and is made then, as soon as
the environment answers the first clock reading and poll). The teardown that
`nmtstc_service_init` runs after the child exited before the name appeared
therefore consists of closing the keep-alive descriptor, releasing the proxy
and the bus-name check (followed by the release of the bus and the handle when
the name is gone): no signal, no poll. -/
theorem cleanup_null_is_noop_and_signals_iff_valid_pid (INVAL : Int) :
    (∀ env, nmtstc_service_cleanup INVAL none env = (Status.returned, []))
    ∧ (∀ info env, (∃ p sg, SEv.kill p sg ∈ (nmtstc_service_cleanup INVAL info env).2)
        ↔ ∃ i, info = some i ∧ i.pid ≠ INVAL)
    ∧ (∀ info env, (∃ w, SEv.waitpid w ∈ (nmtstc_service_cleanup INVAL info env).2)
        → ∃ i, info = some i ∧ i.pid ≠ INVAL)
    ∧ (∀ i env, i.pid ≠ INVAL → env.clocks ≠ [] → env.waits ≠ [] →
        ∃ w, SEv.waitpid w ∈ (nmtstc_service_cleanup INVAL (some i) env).2)
    ∧ (∀ info data env proxy_ok, data.name_found = false → data.exited = true →
        (nmtstc_service_init INVAL info false data env proxy_ok).2
          = SEv.nm_close info.keepalive_fd :: SEv.clear_proxy :: SEv.name_exists env.name_exists
              :: (if env.name_exists then [] else [SEv.clear_bus, SEv.free_info])) := by
  refine ⟨fun env => rfl, ?_, ?_, ?_, ?_⟩
  · intro info env
    constructor
    · rintro ⟨p, sg, h⟩
      cases info with
      | none => simp [nmtstc_service_cleanup] at h
      | some i =>
        refine ⟨i, rfl, ?_⟩
        intro hpid
        rw [cleanup_invalid_pid INVAL i env hpid] at h
        simp [cleanup_finish_no_kill] at h
    · rintro ⟨i, rfl, hpid⟩
      obtain ⟨rest, htr, -⟩ := cleanup_valid_starts_with_sigterm INVAL i env hpid
      exact ⟨i.pid, Signal.SIGTERM, by rw [htr]; simp⟩
  · rintro info env ⟨w, h⟩
    cases info with
    | none => simp [nmtstc_service_cleanup] at h
    | some i =>
      refine ⟨i, rfl, ?_⟩
      intro hpid
      rw [cleanup_invalid_pid INVAL i env hpid] at h
      simp [cleanup_finish_no_poll] at h
  · intro i env hpid hc hw
    obtain ⟨t, cs, hc⟩ := List.exists_cons_of_ne_nil hc
    obtain ⟨w, ws, hw⟩ := List.exists_cons_of_ne_nil hw
    obtain ⟨F, htr, -⟩ := cleanup_valid_shape INVAL i env hpid t cs hc
    obtain ⟨rest, hr⟩ := again_wait_first i.pid t w ws cs
    exact ⟨w, by rw [htr, hw, hr]; simp⟩
  · intro info data env proxy_ok hf he
    have hcl := cleanup_invalid_pid INVAL { info with pid := INVAL } env rfl
    cases hn : env.name_exists <;>
      simp [nmtstc_service_init, hf, he, hcl, cleanup_finish, hn]
    split <;> rfl

/-- Witness for C10: a handle with the valid pid 5 is polled as soon as the
environment answers one clock reading and one poll. -/
theorem cleanup_null_is_noop_and_signals_iff_valid_pid_witness :
    ∃ w, SEv.waitpid w ∈ (nmtstc_service_cleanup (-1) (some ⟨5, 3, true⟩)
      ⟨[⟨5, false⟩], [100], false⟩).2 :=
  (cleanup_null_is_noop_and_signals_iff_valid_pid (-1)).2.2.2.1 ⟨5, 3, true⟩
    ⟨[⟨5, false⟩], [100], false⟩ (by decide) (by simp) (by simp)

/-- C1: the decision of `nmtstc_service_init` after the readiness wait, for
every `had_timeout`, `name_found`, `exited` and exit status (the bus name
being gone when the nested teardown checks it): the result is NULL exactly
when there was no timeout, the name was not found, and the child exited
normally with exit code 77; a handle is returned only without timeout and
with the name found, and is returned then whatever the child-exit flag says
(provided the proxy can be created); every other combination aborts. -/
theorem init_decision (INVAL : Int) (info : NMTstcServiceInfo) (had_timeout : Bool)
    (data : ServiceInitWaitData) (env : CleanupEnv) (proxy_ok : Bool)
    (hgone : env.name_exists = false) :
    ((nmtstc_service_init INVAL info had_timeout data env proxy_ok).1 = InitResult.null
        ↔ had_timeout = false ∧ data.name_found = false ∧ data.exited = true
          ∧ WIFEXITED data.exit_code = true ∧ WEXITSTATUS data.exit_code = 77)
    ∧ ((∃ h, (nmtstc_service_init INVAL info had_timeout data env proxy_ok).1 = InitResult.handle h)
        → had_timeout = false ∧ data.name_found = true)
    ∧ (had_timeout = false → data.name_found = true → proxy_ok = true →
        (nmtstc_service_init INVAL info had_timeout data env proxy_ok).1
          = InitResult.handle { info with has_proxy := true })
    ∧ (¬ (had_timeout = false ∧ data.name_found = true) →
        ¬ (had_timeout = false ∧ data.name_found = false ∧ data.exited = true
          ∧ WIFEXITED data.exit_code = true ∧ WEXITSTATUS data.exit_code = 77) →
        (nmtstc_service_init INVAL info had_timeout data env proxy_ok).1 = InitResult.abort) := by
  have hcl := cleanup_invalid_pid INVAL { info with pid := INVAL } env rfl
  obtain ⟨ec, ex, nf⟩ := data
  cases had_timeout <;> cases nf <;> cases ex <;> cases proxy_ok <;>
    cases h1 : WIFEXITED ec <;> by_cases h2 : WEXITSTATUS ec = 77 <;>
    simp [nmtstc_service_init, hcl, cleanup_finish, hgone, h1, h2]

/-- Witness for C1: no timeout, name not found, child exited with status
`77 << 8` (exit code 77): NULL. -/
theorem init_decision_witness :
    (nmtstc_service_init (-1) ⟨5, 3, false⟩ false ⟨19712, true, false⟩ ⟨[], [], false⟩ true).1
        = InitResult.null
      ↔ false = false ∧ (⟨19712, true, false⟩ : ServiceInitWaitData).name_found = false
        ∧ (⟨19712, true, false⟩ : ServiceInitWaitData).exited = true
        ∧ WIFEXITED (⟨19712, true, false⟩ : ServiceInitWaitData).exit_code = true
        ∧ WEXITSTATUS (⟨19712, true, false⟩ : ServiceInitWaitData).exit_code = 77 :=
  (init_decision (-1) ⟨5, 3, false⟩ false ⟨19712, true, false⟩ ⟨[], [], false⟩ true rfl).1

/-! ## Remote calls: the claims -/

/-- C8: the request `add_device_common` builds. For the method name
"AddWiredDevice" it is the call AddWiredDevice with the interface name, the
hardware address (or "/" when there is none) and the sub-channel list (or the
empty list when there is none); for any other method name it is the call of
that name with the interface name alone. Adding the wired device "eth7"
without address and sub-channels sends ("eth7", "/", []). -/
theorem add_device_common_request (method ifname : String) (hwaddr : Option String)
    (subchannels : Option (List String)) :
    (method = "AddWiredDevice" →
      add_device_common method ifname hwaddr subchannels
        = { method := "AddWiredDevice",
            args := CallArgs.ss_as ifname (hwaddr.getD "/") (subchannels.getD []),
            no_auto_start := true, timeout_msec := 3000 })
    ∧ (method ≠ "AddWiredDevice" →
      add_device_common method ifname hwaddr subchannels
        = { method := method, args := CallArgs.s ifname, no_auto_start := true, timeout_msec := 3000 })
    ∧ nmtstc_service_add_wired_device ifname hwaddr subchannels
        = add_device_common "AddWiredDevice" ifname hwaddr subchannels
    ∧ nmtstc_service_add_wired_device "eth7" none none
        = { method := "AddWiredDevice", args := CallArgs.ss_as "eth7" "/" [],
            no_auto_start := true, timeout_msec := 3000 } := by
  refine ⟨?_, ?_, rfl, by decide⟩
  · intro h
    cases hwaddr <;> cases subchannels <;> simp [add_device_common, call_add_wired_device, h]
  · intro h
    simp [add_device_common, call_add_device, h]

/-- Witness for C8: a wired device with address and sub-channels, and a device
added through another method. -/
theorem add_device_common_request_witness :
    add_device_common "AddWiredDevice" "eth0" (some "/hw/1") (some ["0.0.1", "0.0.2"])
        = { method := "AddWiredDevice",
            args := CallArgs.ss_as "eth0" ((some "/hw/1").getD "/") ((some ["0.0.1", "0.0.2"]).getD []),
            no_auto_start := true, timeout_msec := 3000 }
    ∧ add_device_common "AddWifiDevice" "wlan0" (some "/hw/1") none
        = { method := "AddWifiDevice", args := CallArgs.s "wlan0", no_auto_start := true,
            timeout_msec := 3000 } :=
  ⟨(add_device_common_request "AddWiredDevice" "eth0" (some "/hw/1") (some ["0.0.1", "0.0.2"])).1 rfl,
   (add_device_common_request "AddWifiDevice" "wlan0" (some "/hw/1") none).2.1 (by decide)⟩

/-- C7, as stated, fails: the path "//" is present and begins with '/', yet no
UpdateConnection call is made, because "//" is not an object path and the
argument tuple cannot be built. -/
theorem update_connection_first_char_counterexample :
    ("//" : String).data.head? = some '/'
    ∧ nmtstc_service_update_connection (some ⟨5, 3, true⟩) (some "//")
        ⟨none, ⟨"a\x7bsa\x7bsv\x7d\x7d", 7⟩⟩ true (some "()") = (Status.aborted, []) := by
  decide

/-- C7, amended: with a usable service handle and a profile that serialises to
the profile type, `nmtstc_service_update_connection` resolves the path to the
explicit one when given and to the profile's embedded one otherwise; it makes
exactly one remote call, UpdateConnection with the resolved path as first
argument, if and only if the resolved path is present and is a D-Bus object
path, which implies that it begins with '/'. In every other case, in
particular for an absent path, an empty path and a path with another first
character, the run dies without any remote call. -/
theorem update_connection_object_path_rule (si : NMTstcServiceInfo) (path : Option String)
    (connection : NMConnection) (verify_connection : Bool) (reply : Option String)
    (hproxy : si.has_proxy = true)
    (htype : connection.to_dbus.type_string = "a\x7bsa\x7bsv\x7d\x7d") :
    (∀ p, (path <|> connection.path) = some p → g_variant_is_object_path p = true →
      (nmtstc_service_update_connection (some si) path connection verify_connection reply).2
        = [{ method := "UpdateConnection",
             args := CallArgs.ovb p connection.to_dbus verify_connection,
             no_auto_start := true, timeout_msec := 3000 }])
    ∧ ((nmtstc_service_update_connection (some si) path connection verify_connection reply).2 ≠ []
        ↔ ∃ p, (path <|> connection.path) = some p ∧ g_variant_is_object_path p = true)
    ∧ ((¬ ∃ p, (path <|> connection.path) = some p ∧ g_variant_is_object_path p = true) →
        nmtstc_service_update_connection (some si) path connection verify_connection reply
          = (Status.aborted, []))
    ∧ (∀ p, g_variant_is_object_path p = true → p.data.head? = some '/')
    ∧ ((¬ ∃ p, (path <|> connection.path) = some p ∧ p.data.head? = some '/') →
        nmtstc_service_update_connection (some si) path connection verify_connection reply
          = (Status.aborted, [])) := by
  have hhead : ∀ p, g_variant_is_object_path p = true → p.data.head? = some '/' := by
    intro p hp
    unfold g_variant_is_object_path at hp
    cases hd : p.data with
    | nil => rw [hd] at hp; simp at hp
    | cons c rest =>
      rw [hd] at hp
      simp only [Bool.and_eq_true, beq_iff_eq] at hp
      simp [hp.1.1]
  have hres : ∀ q, (path <|> connection.path) = q →
      nmtstc_service_update_connection (some si) path connection verify_connection reply
        = match q with
          | none => (Status.aborted, [])
          | some p => nmtstc_service_update_connection_variant (some si) (some p)
              connection.to_dbus verify_connection reply := by
    intro q hq
    subst hq
    cases path <;> simp [nmtstc_service_update_connection]
  have hno : (¬ ∃ p, (path <|> connection.path) = some p ∧ g_variant_is_object_path p = true) →
      nmtstc_service_update_connection (some si) path connection verify_connection reply
        = (Status.aborted, []) := by
    intro h
    cases hq : (path <|> connection.path) with
    | none => rw [hres none hq]
    | some p =>
      rw [hres (some p) hq]
      have hp : g_variant_is_object_path p = false := by
        cases hg : g_variant_is_object_path p with
        | false => rfl
        | true => exact absurd ⟨p, hq, hg⟩ h
      by_cases hh : p.data.head? = some '/' <;>
        simp [nmtstc_service_update_connection_variant, hproxy, htype, hh, hp]
  have hyes : ∀ p, (path <|> connection.path) = some p → g_variant_is_object_path p = true →
      (nmtstc_service_update_connection (some si) path connection verify_connection reply).2
        = [{ method := "UpdateConnection",
             args := CallArgs.ovb p connection.to_dbus verify_connection,
             no_auto_start := true, timeout_msec := 3000 }] := by
    intro p hq hp
    rw [hres (some p) hq]
    have hh := hhead p hp
    cases reply with
    | none => simp [nmtstc_service_update_connection_variant, hproxy, htype, hh, hp]
    | some ty =>
      by_cases hty : ty = "()" <;>
        simp [nmtstc_service_update_connection_variant, hproxy, htype, hh, hp, hty]
  refine ⟨hyes, ?_, hno, hhead, ?_⟩
  · constructor
    · intro hne
      by_contra hcon
      rw [hno hcon] at hne
      exact hne rfl
    · rintro ⟨p, hq, hp⟩
      rw [hyes p hq hp]
      simp
  · intro h
    apply hno
    rintro ⟨p, hq, hp⟩
    exact h ⟨p, hq, hhead p hp⟩

/-- Witness for C7 amended: no explicit path, a profile whose embedded path is
"/org/freedesktop/NetworkManager/Settings/Connection/3". -/
theorem update_connection_object_path_rule_witness :
    (nmtstc_service_update_connection (some ⟨5, 3, true⟩) none
        ⟨some "/org/freedesktop/NetworkManager/Settings/Connection/3", ⟨"a\x7bsa\x7bsv\x7d\x7d", 7⟩⟩
        true (some "()")).2
      = [{ method := "UpdateConnection",
           args := CallArgs.ovb "/org/freedesktop/NetworkManager/Settings/Connection/3"
             ⟨"a\x7bsa\x7bsv\x7d\x7d", 7⟩ true,
           no_auto_start := true, timeout_msec := 3000 }] :=
  (update_connection_object_path_rule ⟨5, 3, true⟩ none
    ⟨some "/org/freedesktop/NetworkManager/Settings/Connection/3", ⟨"a\x7bsa\x7bsv\x7d\x7d", 7⟩⟩
    true (some "()") rfl rfl).1 "/org/freedesktop/NetworkManager/Settings/Connection/3" rfl (by decide)

/-- The object-path test on sample strings. -/
theorem g_variant_is_object_path_samples :
    g_variant_is_object_path "/" = true ∧ g_variant_is_object_path "//" = false
    ∧ g_variant_is_object_path "/a/" = false ∧ g_variant_is_object_path "/a b" = false
    ∧ g_variant_is_object_path "/a-b" = false ∧ g_variant_is_object_path "/a/b_1" = true
    ∧ g_variant_is_object_path "" = false ∧ g_variant_is_object_path "a" = false := by decide

/-! ## Client bootstrap: the claims -/

/-- C3: on a client whose keyed data holds any entries (fewer than 2^32, the
capacity of a `GData` array), `_nmtstc_client_new_extra_context` stores the
integration source under "nm-test-extra-context-k" for the least index k
whose key is not in use; that key was not in use before, and every entry
present before is still there with the same value. Hence successive
attachments on data without such keys use the indices 0, 1, 2, ... in turn:
afterwards key k holds the k-th source and no other index is in use. Three
nested contexts built through `nmtstc_client_new` occupy the indices 0, 1, 2. -/
theorem extra_context_key_previously_unused :
    (∀ (data : GData) (source : Nat), data.length < 4294967296 →
      ∃ k data', extra_context_set_data data source = some (k, data')
        ∧ g_object_get_data data (extra_context_key k) = none
        ∧ (∀ j, j < k → g_object_get_data data (extra_context_key j) ≠ none)
        ∧ g_object_get_data data' (extra_context_key k) = some source
        ∧ (∀ key v, g_object_get_data data key = some v → g_object_get_data data' key = some v)
        ∧ (∀ key, key ≠ extra_context_key k →
            g_object_get_data data' key = g_object_get_data data key))
    ∧ (∀ (sources : List Nat) (data : GData), sources.length ≤ 4294967296 →
        (∀ k, g_object_get_data data (extra_context_key k) = none) →
        ∃ data', sources.foldlM (fun d src => (extra_context_set_data d src).map Prod.snd) data
            = some data'
          ∧ ∀ k, g_object_get_data data' (extra_context_key k) = sources[k]?)
    ∧ (nmtstc_client_new 4 true ⟨[0, 0, 0, 1, 1], [true, true, true, true], 1, []⟩).map
          (fun r => r.1.data)
        = some [(extra_context_key 0, 3), (extra_context_key 1, 2), (extra_context_key 2, 1)] := by
  refine ⟨?_, ?_, by decide⟩
  · intro data source hlen
    obtain ⟨k, hset, -, hfree, hused⟩ := extra_context_set_data_least data source hlen
    refine ⟨k, _, hset, hfree, hused, by simp [get_data_set_data], ?_, ?_⟩
    · intro key v hv
      rw [get_data_set_data]
      by_cases hk : extra_context_key k = key
      · rw [← hk, hfree] at hv
        cases hv
      · simp [hk, hv]
    · intro key hk
      rw [get_data_set_data, if_neg (Ne.symm hk)]
  · intro sources data hlen hfree
    obtain ⟨data', hfold, hkeys⟩ := extra_context_set_data_successive sources 0 data
      (by omega) (fun k _ => hfree k) (fun k hk => absurd hk (Nat.not_lt_zero k))
    exact ⟨data', hfold, fun k => by simpa using hkeys k⟩

/-- Witness for C3: with the keys of the indices 0 and 2 in use, the new source
goes under the key of index 1. -/
theorem extra_context_key_previously_unused_witness :
    ∃ k data', extra_context_set_data
        [("nm-test-extra-context-0", 7), ("other", 9), ("nm-test-extra-context-2", 8)] 5
          = some (k, data')
      ∧ g_object_get_data [("nm-test-extra-context-0", 7), ("other", 9), ("nm-test-extra-context-2", 8)]
          (extra_context_key k) = none
      ∧ (∀ j, j < k → g_object_get_data
          [("nm-test-extra-context-0", 7), ("other", 9), ("nm-test-extra-context-2", 8)]
          (extra_context_key j) ≠ none)
      ∧ g_object_get_data data' (extra_context_key k) = some 5
      ∧ (∀ key v, g_object_get_data
          [("nm-test-extra-context-0", 7), ("other", 9), ("nm-test-extra-context-2", 8)] key = some v →
          g_object_get_data data' key = some v)
      ∧ (∀ key, key ≠ extra_context_key k → g_object_get_data data' key
          = g_object_get_data
            [("nm-test-extra-context-0", 7), ("other", 9), ("nm-test-extra-context-2", 8)] key) :=
  extra_context_key_previously_unused.1
    [("nm-test-extra-context-0", 7), ("other", 9), ("nm-test-extra-context-2", 8)] 5 (by decide)

/-- C4: `nmtstc_client_new` on a first 32-bit draw `r`. It runs the
nested-context variant when `r` is divisible by 5, and a completed run starts
with pushing a new context if and only if `r` is divisible by 5. When `r` is
not divisible by 5 and `allow_iterate_main_context` is FALSE, it is the direct
call `_nmtstc_client_new (TRUE)` on the remaining draws: no further 32-bit
draw is made, and the run holds no asynchronous constructor, idle dispatch,
loop run or context push. When `r` is not divisible by 5 and
`allow_iterate_main_context` is TRUE, the construction mode is the next
boolean draw `b`, and the construction goes through the idle callback if and
only if the following 32-bit draw `m` is divisible by 3. -/
theorem client_new_selection (fuel : Nat) (allow : Bool) (r : Nat) (us : List Nat)
    (bs : List Bool) (id : Nat) (tr : List CEv) :
    (r % 5 = 0 →
      nmtstc_client_new (fuel + 1) allow ⟨r :: us, bs, id, tr⟩
        = _nmtstc_client_new_extra_context (nmtstc_client_new fuel) ⟨us, bs, id, tr⟩)
    ∧ (∀ c s', nmtstc_client_new (fuel + 1) allow ⟨r :: us, bs, id, tr⟩ = some (c, s') →
        ((∃ rest, s'.trace = tr ++ CEv.context_push id :: rest) ↔ r % 5 = 0))
    ∧ (r % 5 ≠ 0 → allow = false →
        nmtstc_client_new (fuel + 1) allow ⟨r :: us, bs, id, tr⟩
          = _nmtstc_client_new true ⟨us, bs, id, tr⟩
        ∧ ∀ c s', nmtstc_client_new (fuel + 1) allow ⟨r :: us, bs, id, tr⟩ = some (c, s') →
            s'.rand_uint32 = us
            ∧ ∃ new, s'.trace = tr ++ new ∧ CEv.client_new_async ∉ new ∧ CEv.loop_run ∉ new
                ∧ (∀ b, CEv.idle_attach b ∉ new) ∧ (∀ ctx, CEv.context_push ctx ∉ new))
    ∧ (r % 5 ≠ 0 → allow = true → ∀ b bs' m us', bs = b :: bs' → us = m :: us' →
        nmtstc_client_new (fuel + 1) allow ⟨r :: us, bs, id, tr⟩
          = (if m % 3 = 0 then
              _nmtstc_client_new_inside_loop (nmtstc_client_new fuel) b ⟨us', bs', id, tr⟩
            else _nmtstc_client_new b ⟨us', bs', id, tr⟩)
        ∧ ∀ c s', nmtstc_client_new (fuel + 1) allow ⟨r :: us, bs, id, tr⟩ = some (c, s') →
            ((∃ rest, s'.trace = tr ++ CEv.idle_attach b :: CEv.loop_run :: rest) ↔ m % 3 = 0)) := by
  refine ⟨fun hr => client_new_unfold_nested fuel allow r us bs id tr hr, ?_, ?_, ?_⟩
  · intro c s' h
    by_cases hr : r % 5 = 0
    · simp only [hr, iff_true]
      rw [client_new_unfold_nested fuel allow r us bs id tr hr, extra_context_run] at h
      obtain ⟨c0, s0, k, data, h0, -, -, rfl⟩ := h
      obtain ⟨new, hnew⟩ := client_new_trace_extends fuel true _ c0 s0 h0
      exact ⟨new ++ [CEv.integrate_source id, CEv.context_pop id, CEv.source_attach id,
        CEv.set_data (extra_context_key k) id], by simp [hnew]⟩
    · simp only [hr, iff_false]
      rintro ⟨rest, hrest⟩
      cases allow with
      | false =>
        rw [client_new_unfold_no_iterate fuel r us bs id tr hr] at h
        obtain ⟨e, rest', he, hne⟩ := client_new_direct_first true _ c s' h
        rw [hrest] at he
        have := List.append_cancel_left he
        simp only [List.cons.injEq] at this
        exact hne id this.1.symm
      | true =>
        rcases bs with _ | ⟨b, bs⟩
        · simp [nmtstc_client_new, nmtst_get_rand_uint32, nmtst_get_rand_bool, hr] at h
        rcases us with _ | ⟨m, us⟩
        · simp [nmtstc_client_new, nmtst_get_rand_uint32, nmtst_get_rand_bool, hr] at h
        rw [client_new_unfold_iterate fuel r m us b bs id tr hr] at h
        by_cases hm : m % 3 = 0
        · rw [if_pos hm, inside_loop_run] at h
          obtain ⟨s0, h0, rfl⟩ := h
          obtain ⟨new, hnew⟩ := client_new_trace_extends fuel b _ c s0 h0
          simp only [hnew, List.append_assoc] at hrest
          have := List.append_cancel_left hrest
          simp at this
        · rw [if_neg hm] at h
          obtain ⟨e, rest', he, hne⟩ := client_new_direct_first b _ c s' h
          rw [hrest] at he
          have := List.append_cancel_left he
          simp only [List.cons.injEq] at this
          exact hne id this.1.symm
  · intro hr hallow
    subst hallow
    have hunf := client_new_unfold_no_iterate fuel r us bs id tr hr
    refine ⟨hunf, ?_⟩
    intro c s' h
    rw [hunf] at h
    obtain ⟨g, t, e, bs', -, -, rfl⟩ := client_new_sync_run _ c s' h
    refine ⟨rfl, _, rfl, ?_⟩
    cases g <;> cases t <;> simp
  · intro hr hallow b bs' m us' hbs hus
    subst hallow hbs hus
    have hunf := client_new_unfold_iterate fuel r m us' b bs' id tr hr
    refine ⟨hunf, ?_⟩
    intro c s' h
    rw [hunf] at h
    by_cases hm : m % 3 = 0
    · simp only [hm, iff_true]
      rw [if_pos hm, inside_loop_run] at h
      obtain ⟨s0, h0, rfl⟩ := h
      obtain ⟨new, hnew⟩ := client_new_trace_extends fuel b _ c s0 h0
      exact ⟨new ++ [CEv.loop_quit], by simp [hnew]⟩
    · simp only [hm, iff_false]
      rintro ⟨rest, hrest⟩
      rw [if_neg hm] at h
      cases b with
      | true =>
        obtain ⟨g, t, e, bs'', -, -, rfl⟩ := client_new_sync_run _ c s' h
        have := List.append_cancel_left hrest
        cases g <;> cases t <;> simp at this
      | false =>
        obtain ⟨e, bs'', -, -, rfl⟩ := client_new_async_run _ c s' h
        have := List.append_cancel_left hrest
        simp at this

/-- Witness for C4: first draw 7, iterating not allowed: the direct
synchronous construction on the remaining draws. -/
theorem client_new_selection_witness :
    nmtstc_client_new (0 + 1) false ⟨7 :: [9], [true, false, true], 1, []⟩
        = _nmtstc_client_new true ⟨[9], [true, false, true], 1, []⟩
      ∧ ∀ c s', nmtstc_client_new (0 + 1) false ⟨7 :: [9], [true, false, true], 1, []⟩ = some (c, s') →
          s'.rand_uint32 = [9]
          ∧ ∃ new, s'.trace = [] ++ new ∧ CEv.client_new_async ∉ new ∧ CEv.loop_run ∉ new
              ∧ (∀ b, CEv.idle_attach b ∉ new) ∧ (∀ ctx, CEv.context_push ctx ∉ new) :=
  (client_new_selection 0 false 7 [9] [true, false, true] 1 []).2.2.1 (by decide) rfl

/-- C5, as stated, fails: with the draws 1, 1 and FALSE, TRUE the
nested-context variant constructs the client with the asynchronous
constructor and a loop run inside the pushed context. -/
theorem extra_context_sync_only_counterexample :
    _nmtstc_client_new_extra_context (nmtstc_client_new 1) ⟨[1, 1], [false, true], 1, []⟩
        = some (⟨[(extra_context_key 0, 1)]⟩, ⟨[], [], 2,
            [CEv.context_push 1, CEv.client_new_async, CEv.loop_run, CEv.client_new_finish true,
             CEv.loop_quit, CEv.integrate_source 1, CEv.context_pop 1, CEv.source_attach 1,
             CEv.set_data (extra_context_key 0) 1]⟩)
      ∧ CEv.client_new_async ∈
          [CEv.context_push 1, CEv.client_new_async, CEv.loop_run, CEv.client_new_finish true,
           CEv.loop_quit, CEv.integrate_source 1, CEv.context_pop 1, CEv.source_attach 1,
           CEv.set_data (extra_context_key 0) 1]
      ∧ CEv.loop_run ∈
          [CEv.context_push 1, CEv.client_new_async, CEv.loop_run, CEv.client_new_finish true,
           CEv.loop_quit, CEv.integrate_source 1, CEv.context_pop 1, CEv.source_attach 1,
           CEv.set_data (extra_context_key 0) 1] := by
  decide

/-- C5, amended: the nested-context variant constructs the client, inside the
freshly pushed inner context, by a recursive call of `nmtstc_client_new` with
`allow_iterate_main_context = TRUE`: its completed runs are the context push,
a completed run of that call, and the epilogue (integration source, pop,
attachment, keyed data). The construction is therefore the one the following
draws select: when they select a direct construction (32-bit draws `r` not
divisible by 5 and `m` not divisible by 3), its mode is the boolean draw `b`,
synchronous without asynchronous constructor, idle dispatch or loop run for
TRUE, the asynchronous constructor with a loop run for FALSE. -/
theorem extra_context_runs_randomised_trial (fuel : Nat) (s : TState) :
    (∀ c s', _nmtstc_client_new_extra_context (nmtstc_client_new fuel) s = some (c, s') ↔
      ∃ c0 s0 k data,
        nmtstc_client_new fuel true { s with next_id := s.next_id + 1,
                                             trace := s.trace ++ [CEv.context_push s.next_id] }
          = some (c0, s0)
        ∧ extra_context_set_data c0.data s.next_id = some (k, data)
        ∧ c = { data := data }
        ∧ s' = { s0 with trace := s0.trace ++ [CEv.integrate_source s.next_id,
                   CEv.context_pop s.next_id, CEv.source_attach s.next_id,
                   CEv.set_data (extra_context_key k) s.next_id] })
    ∧ (∀ r m us b bs, s.rand_uint32 = r :: m :: us → s.rand_bool = b :: bs →
        r % 5 ≠ 0 → m % 3 ≠ 0 →
        ∀ c s', _nmtstc_client_new_extra_context (nmtstc_client_new (fuel + 1)) s = some (c, s') →
          ∃ ctor, s'.trace = s.trace ++ [CEv.context_push s.next_id] ++ ctor
              ++ [CEv.integrate_source s.next_id, CEv.context_pop s.next_id,
                  CEv.source_attach s.next_id, CEv.set_data (extra_context_key 0) s.next_id]
            ∧ (b = true → CEv.client_new_async ∉ ctor ∧ CEv.loop_run ∉ ctor
                ∧ ∀ b', CEv.idle_attach b' ∉ ctor)
            ∧ (b = false → ∃ e, ctor = [CEv.client_new_async, CEv.loop_run,
                CEv.client_new_finish e, CEv.loop_quit])) := by
  refine ⟨fun c s' => extra_context_run (nmtstc_client_new fuel) s c s', ?_⟩
  intro r m us b bs hus hbs hr hm c s' h
  obtain ⟨us0, bs0, id, tr⟩ := s
  simp only at hus hbs
  subst hus hbs
  rw [extra_context_run] at h
  obtain ⟨c0, s0, k, data, h0, hk, -, rfl⟩ := h
  simp only at h0 hk
  rw [client_new_unfold_iterate fuel r m us b bs (id + 1) _ hr, if_neg hm] at h0
  cases b with
  | true =>
    obtain ⟨g, t, e, bs', -, rfl, rfl⟩ := client_new_sync_run _ c0 s0 h0
    rw [extra_context_set_data_empty] at hk
    simp only [Option.some.injEq, Prod.mk.injEq] at hk
    obtain ⟨rfl, -⟩ := hk
    refine ⟨(if g = true then [CEv.guard_attach] else [])
      ++ (if t = true then [CEv.object_new, CEv.initable_init e] else [CEv.client_new e]),
      by simp, ?_, by simp⟩
    intro _
    cases g <;> cases t <;> simp
  | false =>
    obtain ⟨e, bs', -, rfl, rfl⟩ := client_new_async_run _ c0 s0 h0
    rw [extra_context_set_data_empty] at hk
    simp only [Option.some.injEq, Prod.mk.injEq] at hk
    obtain ⟨rfl, -⟩ := hk
    exact ⟨[CEv.client_new_async, CEv.loop_run, CEv.client_new_finish e, CEv.loop_quit],
      by simp, by simp, fun _ => ⟨e, rfl⟩⟩

/-- Witness for C5 amended: the completed run of the counterexample decomposes
into the push, a run of `nmtstc_client_new (TRUE)` and the epilogue. -/
theorem extra_context_runs_randomised_trial_witness :
    ∃ c0 s0 k data,
      nmtstc_client_new 1 true { (⟨[1, 1], [false, true], 1, []⟩ : TState) with
          next_id := (⟨[1, 1], [false, true], 1, []⟩ : TState).next_id + 1,
          trace := (⟨[1, 1], [false, true], 1, []⟩ : TState).trace
            ++ [CEv.context_push (⟨[1, 1], [false, true], 1, []⟩ : TState).next_id] } = some (c0, s0)
      ∧ extra_context_set_data c0.data (⟨[1, 1], [false, true], 1, []⟩ : TState).next_id
          = some (k, data)
      ∧ (⟨[(extra_context_key 0, 1)]⟩ : NMClient) = { data := data }
      ∧ (⟨[], [], 2,
            [CEv.context_push 1, CEv.client_new_async, CEv.loop_run, CEv.client_new_finish true,
             CEv.loop_quit, CEv.integrate_source 1, CEv.context_pop 1, CEv.source_attach 1,
             CEv.set_data (extra_context_key 0) 1]⟩ : TState)
          = { s0 with trace := s0.trace
                ++ [CEv.integrate_source (⟨[1, 1], [false, true], 1, []⟩ : TState).next_id,
                   CEv.context_pop (⟨[1, 1], [false, true], 1, []⟩ : TState).next_id,
                   CEv.source_attach (⟨[1, 1], [false, true], 1, []⟩ : TState).next_id,
                   CEv.set_data (extra_context_key k)
                     (⟨[1, 1], [false, true], 1, []⟩ : TState).next_id] } :=
  ((extra_context_runs_randomised_trial 1 ⟨[1, 1], [false, true], 1, []⟩).1 _ _).1 (by decide)

/-- C6, the code at the failing inputs: the idle callback calls
`nmtstc_client_new (d->sync)`, which decides anew. With the asynchronous mode
chosen (`sync = FALSE`) the client is constructed synchronously; with the
synchronous mode chosen the draws FALSE, 1 make it asynchronous; and a draw
divisible by 5 sends it into the nested-context variant. Direct construction
`_nmtstc_client_new (FALSE)` is asynchronous. -/
theorem inside_loop_decides_anew :
    _nmtstc_client_new_inside_loop (nmtstc_client_new 1) false ⟨[1], [true, true, true], 1, []⟩
        = some (⟨[]⟩, ⟨[], [], 1,
            [CEv.idle_attach false, CEv.loop_run, CEv.guard_attach, CEv.object_new,
             CEv.initable_init true, CEv.loop_quit]⟩)
    ∧ _nmtstc_client_new false ⟨[], [true], 1, []⟩
        = some (⟨[]⟩, ⟨[], [], 1,
            [CEv.client_new_async, CEv.loop_run, CEv.client_new_finish true, CEv.loop_quit]⟩)
    ∧ _nmtstc_client_new_inside_loop (nmtstc_client_new 1) true ⟨[1, 1], [false, true], 1, []⟩
        = some (⟨[]⟩, ⟨[], [], 1,
            [CEv.idle_attach true, CEv.loop_run, CEv.client_new_async, CEv.loop_run,
             CEv.client_new_finish true, CEv.loop_quit, CEv.loop_quit]⟩)
    ∧ _nmtstc_client_new_inside_loop (nmtstc_client_new 2) true
          ⟨[0, 1, 1], [true, false, false, true], 1, []⟩
        = some (⟨[(extra_context_key 0, 1)]⟩, ⟨[], [], 2,
            [CEv.idle_attach true, CEv.loop_run, CEv.context_push 1, CEv.client_new true,
             CEv.integrate_source 1, CEv.context_pop 1, CEv.source_attach 1,
             CEv.set_data (extra_context_key 0) 1, CEv.loop_quit]⟩) := by
  decide

end NMTest
